import Mathlib

/-!
Verification development for the ytshortsgeneration repository (src/api/app.py).

The file shallowly embeds the Python source: durations and aspect ratios are
modelled as exact rationals (Python floats idealised as real arithmetic), the
global `log_queue` as a list of queue items, the filesystem as the list of
existing paths, and the external collaborators (yt-dlp download, the moviepy /
ffmpeg encoding backend, the Vercel Blob store, os.remove) as an explicit
environment supplying each call's outcome, exactly as the spec's collaborator
contracts describe them.
-/

namespace YtShorts

/-- Target width of generated shorts, `app.config['SHORT_VIDEO_WIDTH']` (app.py line 24). -/
def SHORT_VIDEO_WIDTH : ℕ := 1080

/-- Target height of generated shorts, `app.config['SHORT_VIDEO_HEIGHT']` (line 25). -/
def SHORT_VIDEO_HEIGHT : ℕ := 1920

/-- Nominal clip duration in seconds, `app.config['CLIP_DURATION_SECONDS']` (line 27). -/
def CLIP_DURATION_SECONDS : ℚ := 27

/-- Number of clips attempted per job, `app.config['NUM_CLIPS_TO_GENERATE']` (line 28). -/
def NUM_CLIPS_TO_GENERATE : ℕ := 5

/-- Candidate-window loop of `generate_short_clips_to_temp` (app.py lines 115-127),
extracted as the pure segment planner.  `fuel` counts the remaining iterations of
`for i in range(num_clips)` and `i` is the current index.  `start_time = i*clip_duration`,
`end_time = start_time + clip_duration`; the loop breaks once `start_time >= video_duration`;
an `end_time` past the video is clamped to `video_duration`, and a clamped window of length
less than `clip_duration/2` is discarded together with a break. -/
def planAux (totalDuration clipDuration : ℚ) : ℕ → ℕ → List (ℚ × ℚ)
  | 0, _ => []
  | fuel + 1, i =>
      let start : ℚ := (i : ℚ) * clipDuration
      let stop : ℚ := start + clipDuration
      if totalDuration ≤ start then []
      else if totalDuration < stop then
        if totalDuration - start < clipDuration / 2 then []
        else (start, totalDuration) :: planAux totalDuration clipDuration fuel (i + 1)
      else (start, stop) :: planAux totalDuration clipDuration fuel (i + 1)

/-- The segment plan of one job: the loop of lines 115-127 started at `i = 0`. -/
def plan (totalDuration clipDuration : ℚ) (clipCount : ℕ) : List (ℚ × ℚ) :=
  planAux totalDuration clipDuration clipCount 0

lemma planAux_mem {T d : ℚ} (hd : 0 < d) :
    ∀ fuel i, ∀ s ∈ planAux T d fuel i,
      (i : ℚ) * d ≤ s.1 ∧ s.1 < s.2 ∧ s.2 ≤ T ∧ d / 2 ≤ s.2 - s.1 := by
  intro fuel
  induction fuel with
  | zero => intro i s hs; simp [planAux] at hs
  | succ n ih =>
      intro i s hs
      simp only [planAux] at hs
      split at hs
      · simp at hs
      · next h1 =>
        split at hs
        · next h2 =>
          split at hs
          · simp at hs
          · next h3 =>
            rcases List.mem_cons.mp hs with rfl | hs'
            · have h1' : (i : ℚ) * d < T := not_le.mp h1
              have h3' : d / 2 ≤ T - (i : ℚ) * d := not_lt.mp h3
              exact ⟨le_refl _, h1', le_refl _, h3'⟩
            · obtain ⟨ha, hb, hc, he⟩ := ih (i + 1) s hs'
              refine ⟨?_, hb, hc, he⟩
              have : (i : ℚ) * d ≤ ((i : ℚ) + 1) * d := by nlinarith
              push_cast at ha
              linarith
        · next h2 =>
          rcases List.mem_cons.mp hs with rfl | hs'
          · have h2' : (i : ℚ) * d + d ≤ T := not_lt.mp h2
            refine ⟨le_refl _, ?_, h2', ?_⟩ <;> dsimp only <;> linarith
          · obtain ⟨ha, hb, hc, he⟩ := ih (i + 1) s hs'
            refine ⟨?_, hb, hc, he⟩
            have : (i : ℚ) * d ≤ ((i : ℚ) + 1) * d := by nlinarith
            push_cast at ha
            linarith

lemma planAux_head {T d : ℚ} :
    ∀ fuel i s l, planAux T d fuel i = s :: l → s.1 = (i : ℚ) * d := by
  intro fuel i s l h
  cases fuel with
  | zero => simp [planAux] at h
  | succ n =>
      simp only [planAux] at h
      split at h
      · simp at h
      · split at h
        · split at h
          · simp at h
          · injection h with h1 h2
            subst h1; rfl
        · injection h with h1 h2
          subst h1; rfl

lemma planAux_chain {T d : ℚ} (hd : 0 < d) :
    ∀ fuel i, List.Chain' (fun a b : ℚ × ℚ => a.2 ≤ b.1) (planAux T d fuel i) := by
  intro fuel
  induction fuel with
  | zero => intro i; simp [planAux]
  | succ n ih =>
      intro i
      simp only [planAux]
      split
      · simp
      · next h1 =>
        split
        · next h2 =>
          split
          · simp
          · next h3 =>
            refine List.chain'_cons'.mpr ⟨?_, ih (i + 1)⟩
            intro b hb
            cases hpl : planAux T d n (i + 1) with
            | nil => rw [hpl] at hb; simp at hb
            | cons x xs =>
                rw [hpl] at hb
                simp only [List.head?_cons, Option.mem_def, Option.some.injEq] at hb
                subst hb
                have hx := planAux_head n (i + 1) x xs hpl
                rw [hx]
                push_cast
                linarith [h2]
        · next h2 =>
          refine List.chain'_cons'.mpr ⟨?_, ih (i + 1)⟩
          intro b hb
          cases hpl : planAux T d n (i + 1) with
          | nil => rw [hpl] at hb; simp at hb
          | cons x xs =>
              rw [hpl] at hb
              simp only [List.head?_cons, Option.mem_def, Option.some.injEq] at hb
              subst hb
              have hx := planAux_head n (i + 1) x xs hpl
              rw [hx]
              push_cast
              linarith

lemma planAux_length_le {T d : ℚ} : ∀ fuel i, (planAux T d fuel i).length ≤ fuel := by
  intro fuel
  induction fuel with
  | zero => intro i; simp [planAux]
  | succ n ih =>
      intro i
      simp only [planAux]
      split
      · simp
      · split
        · split
          · simp
          · simpa using Nat.succ_le_succ (ih (i + 1))
        · simpa using Nat.succ_le_succ (ih (i + 1))

lemma planAux_length_eq {T d : ℚ} (hd : 0 < d) :
    ∀ fuel i, ((i + fuel : ℕ) : ℚ) * d ≤ T → (planAux T d fuel i).length = fuel := by
  intro fuel
  induction fuel with
  | zero => intro i _; simp [planAux]
  | succ n ih =>
      intro i h
      push_cast at h
      have hnd : (0 : ℚ) ≤ (n : ℚ) * d := by positivity
      have h1 : ¬ T ≤ (i : ℚ) * d := by nlinarith
      have h2 : ¬ T < (i : ℚ) * d + d := by nlinarith
      simp only [planAux, if_neg h1, if_neg h2, List.length_cons]
      rw [ih (i + 1) (by push_cast; linarith)]

/-- C1.  Segment planning: the planner enumerates windows `[i*clipDuration, (i+1)*clipDuration)`
for `i = 0 .. clipCount-1`, stopping at a start past `totalDuration` and clamping/discarding the
tail as coded in app.py lines 115-127.  Consequently every emitted segment satisfies
`0 ≤ start < end ≤ totalDuration`, segments are strictly ordered and disjoint (each segment's
end is at most the next segment's start), none is shorter than `clipDuration/2`, the count is at
most `clipCount`, and equals `clipCount` whenever `totalDuration ≥ clipCount * clipDuration`. -/
theorem planner_correct (totalDuration clipDuration : ℚ) (clipCount : ℕ)
    (hT : 0 < totalDuration) (hd : 0 < clipDuration) (hn : 1 ≤ clipCount) :
    (∀ s ∈ plan totalDuration clipDuration clipCount,
        0 ≤ s.1 ∧ s.1 < s.2 ∧ s.2 ≤ totalDuration ∧ clipDuration / 2 ≤ s.2 - s.1) ∧
    List.Chain' (fun a b : ℚ × ℚ => a.2 ≤ b.1) (plan totalDuration clipDuration clipCount) ∧
    (plan totalDuration clipDuration clipCount).length ≤ clipCount ∧
    ((clipCount : ℚ) * clipDuration ≤ totalDuration →
        (plan totalDuration clipDuration clipCount).length = clipCount) := by
  refine ⟨?_, planAux_chain hd clipCount 0, planAux_length_le clipCount 0, ?_⟩
  · intro s hs
    obtain ⟨h0, h1, h2, h3⟩ := planAux_mem hd clipCount 0 s hs
    refine ⟨?_, h1, h2, h3⟩
    simpa using h0
  · intro h
    exact planAux_length_eq hd clipCount 0 (by simpa using h)

/-- Witness for `planner_correct` at `totalDuration = 100`, `clipDuration = 27`, `clipCount = 5`
(the spec's own worked example). -/
theorem planner_correct_witness :
    (0 : ℚ) < 100 ∧ (0 : ℚ) < 27 ∧ 1 ≤ 5 ∧
      ((∀ s ∈ plan 100 27 5, 0 ≤ s.1 ∧ s.1 < s.2 ∧ s.2 ≤ 100 ∧ 27 / 2 ≤ s.2 - s.1) ∧
       List.Chain' (fun a b : ℚ × ℚ => a.2 ≤ b.1) (plan 100 27 5) ∧
       (plan 100 27 5).length ≤ 5 ∧
       ((5 : ℚ) * 27 ≤ 100 → (plan 100 27 5).length = 5)) :=
  ⟨by norm_num, by norm_num, by norm_num,
   planner_correct 100 27 5 (by norm_num) (by norm_num) (by norm_num)⟩

/-- One step of the per-frame geometry pipeline of app.py lines 133-142: a horizontally
centered crop to a new width keeping the full height (`crop(x_center=w/2, width=new_width)`),
a vertically centered crop to a new height keeping the full width
(`crop(y_center=h/2, height=new_height)`), or a resize to an exact size. -/
inductive GeomOp where
  | cropCenteredToWidth (newWidth : ℕ)
  | cropCenteredToHeight (newHeight : ℕ)
  | resizeTo (w h : ℕ)
deriving DecidableEq

/-- Crop-then-resize pipeline applied to every frame of a sub-clip (app.py lines 133-142):
compare `sub_clip.w / sub_clip.h` against `target_aspect = 1080/1920`; crop first (Python's
`int()` on the positive float is floor), then always resize to exactly the target size. -/
def fitOps (frameW frameH targetW targetH : ℕ) : List GeomOp :=
  let targetAspect : ℚ := (targetW : ℚ) / (targetH : ℚ)
  (if (frameW : ℚ) / (frameH : ℚ) > targetAspect then
      [GeomOp.cropCenteredToWidth (Int.toNat ⌊(frameH : ℚ) * targetAspect⌋)]
    else if (frameW : ℚ) / (frameH : ℚ) < targetAspect then
      [GeomOp.cropCenteredToHeight (Int.toNat ⌊(frameW : ℚ) / targetAspect⌋)]
    else []) ++ [GeomOp.resizeTo targetW targetH]

/-- Effect of one geometry operation on frame dimensions: crops replace one dimension and
keep the other; a resize replaces both. -/
def applyOp (dims : ℕ × ℕ) : GeomOp → ℕ × ℕ
  | GeomOp.cropCenteredToWidth w => (w, dims.2)
  | GeomOp.cropCenteredToHeight h => (dims.1, h)
  | GeomOp.resizeTo w h => (w, h)

/-- Dimensions a frame ends up with after the whole crop-then-resize pipeline. -/
def fitDims (frameW frameH targetW targetH : ℕ) : ℕ × ℕ :=
  (fitOps frameW frameH targetW targetH).foldl applyOp (frameW, frameH)

/-- C2.  Frame geometry: wider-than-target frames get a horizontally centered crop to width
`floor(frameH * targetAspect)` with full height retained; narrower frames a vertically
centered crop to height `floor(frameW / targetAspect)` with full width retained; equal
aspect means no crop; in every case the crop comes first and the result is then resized to
exactly `(targetW, targetH)`.  For a 1920x1080 frame and 1080x1920 target the crop width is
607 with height 1080 unchanged. -/
theorem frame_geometry (fw fh tw th : ℕ)
    (hfw : 0 < fw) (hfh : 0 < fh) (htw : 0 < tw) (hth : 0 < th) :
    ((fw : ℚ) / (fh : ℚ) > (tw : ℚ) / (th : ℚ) →
        fitOps fw fh tw th =
          [GeomOp.cropCenteredToWidth (Int.toNat ⌊(fh : ℚ) * ((tw : ℚ) / (th : ℚ))⌋),
           GeomOp.resizeTo tw th] ∧
        applyOp (fw, fh) (GeomOp.cropCenteredToWidth (Int.toNat ⌊(fh : ℚ) * ((tw : ℚ) / (th : ℚ))⌋)) =
          (Int.toNat ⌊(fh : ℚ) * ((tw : ℚ) / (th : ℚ))⌋, fh)) ∧
    ((fw : ℚ) / (fh : ℚ) < (tw : ℚ) / (th : ℚ) →
        fitOps fw fh tw th =
          [GeomOp.cropCenteredToHeight (Int.toNat ⌊(fw : ℚ) / ((tw : ℚ) / (th : ℚ))⌋),
           GeomOp.resizeTo tw th] ∧
        applyOp (fw, fh) (GeomOp.cropCenteredToHeight (Int.toNat ⌊(fw : ℚ) / ((tw : ℚ) / (th : ℚ))⌋)) =
          (fw, Int.toNat ⌊(fw : ℚ) / ((tw : ℚ) / (th : ℚ))⌋)) ∧
    ((fw : ℚ) / (fh : ℚ) = (tw : ℚ) / (th : ℚ) → fitOps fw fh tw th = [GeomOp.resizeTo tw th]) ∧
    fitDims fw fh tw th = (tw, th) ∧
    fitOps 1920 1080 1080 1920 = [GeomOp.cropCenteredToWidth 607, GeomOp.resizeTo 1080 1920] := by
  refine ⟨?_, ?_, ?_, ?_, by norm_num [fitOps]; rfl⟩
  · intro h
    constructor
    · simp only [fitOps, if_pos h, List.singleton_append]
    · rfl
  · intro h
    have h' : ¬ ((fw : ℚ) / (fh : ℚ) > (tw : ℚ) / (th : ℚ)) := not_lt.mpr h.le
    constructor
    · simp only [fitOps, if_neg h', if_pos h, List.singleton_append]
    · rfl
  · intro h
    have h1 : ¬ ((fw : ℚ) / (fh : ℚ) > (tw : ℚ) / (th : ℚ)) := by rw [h]; exact lt_irrefl _
    have h2 : ¬ ((fw : ℚ) / (fh : ℚ) < (tw : ℚ) / (th : ℚ)) := by rw [h]; exact lt_irrefl _
    simp only [fitOps, if_neg h1, if_neg h2, List.nil_append]
  · rcases lt_trichotomy ((fw : ℚ) / (fh : ℚ)) ((tw : ℚ) / (th : ℚ)) with h | h | h
    · have h' : ¬ ((fw : ℚ) / (fh : ℚ) > (tw : ℚ) / (th : ℚ)) := not_lt.mpr h.le
      simp [fitDims, fitOps, if_neg h', if_pos h, applyOp]
    · have h1 : ¬ ((fw : ℚ) / (fh : ℚ) > (tw : ℚ) / (th : ℚ)) := by rw [h]; exact lt_irrefl _
      have h2 : ¬ ((fw : ℚ) / (fh : ℚ) < (tw : ℚ) / (th : ℚ)) := by rw [h]; exact lt_irrefl _
      simp [fitDims, fitOps, if_neg h1, if_neg h2, applyOp]
    · simp [fitDims, fitOps, if_pos h, applyOp]

/-- Witness for `frame_geometry` at the spec's worked example, a 1920x1080 frame with target
1080x1920. -/
theorem frame_geometry_witness :
    0 < 1920 ∧ 0 < 1080 ∧
      (((1920 : ℚ) / (1080 : ℚ) > (1080 : ℚ) / (1920 : ℚ) →
          fitOps 1920 1080 1080 1920 =
            [GeomOp.cropCenteredToWidth (Int.toNat ⌊(1080 : ℚ) * ((1080 : ℚ) / (1920 : ℚ))⌋),
             GeomOp.resizeTo 1080 1920] ∧
          applyOp (1920, 1080)
              (GeomOp.cropCenteredToWidth (Int.toNat ⌊(1080 : ℚ) * ((1080 : ℚ) / (1920 : ℚ))⌋)) =
            (Int.toNat ⌊(1080 : ℚ) * ((1080 : ℚ) / (1920 : ℚ))⌋, 1080)) ∧
       ((1920 : ℚ) / (1080 : ℚ) < (1080 : ℚ) / (1920 : ℚ) →
          fitOps 1920 1080 1080 1920 =
            [GeomOp.cropCenteredToHeight (Int.toNat ⌊(1920 : ℚ) / ((1080 : ℚ) / (1920 : ℚ))⌋),
             GeomOp.resizeTo 1080 1920] ∧
          applyOp (1920, 1080)
              (GeomOp.cropCenteredToHeight (Int.toNat ⌊(1920 : ℚ) / ((1080 : ℚ) / (1920 : ℚ))⌋)) =
            (1920, Int.toNat ⌊(1920 : ℚ) / ((1080 : ℚ) / (1920 : ℚ))⌋)) ∧
       ((1920 : ℚ) / (1080 : ℚ) = (1080 : ℚ) / (1920 : ℚ) →
          fitOps 1920 1080 1080 1920 = [GeomOp.resizeTo 1080 1920]) ∧
       fitDims 1920 1080 1080 1920 = (1080, 1920) ∧
       fitOps 1920 1080 1080 1920 = [GeomOp.cropCenteredToWidth 607, GeomOp.resizeTo 1080 1920]) :=
  ⟨by norm_num, by norm_num,
   frame_geometry 1920 1080 1080 1920 (by norm_num) (by norm_num) (by norm_num) (by norm_num)⟩

/-- Value of a field of one of the status dictionaries the worker enqueues:
either a string or a list of URL strings. -/
inductive DVal where
  | s (v : String)
  | arr (vs : List String)
deriving DecidableEq

/-- One item of the global `log_queue` (app.py line 31): a plain log line put by
`log_message`, or a status dictionary put by `process_video_task`, kept as an ordered
list of key/value fields. -/
inductive QItem where
  | line (s : String)
  | dict (fields : List (String × DVal))
deriving DecidableEq

/-- The test `isinstance(item, dict) and "status" in item` of app.py line 271. -/
def isRecord : QItem → Bool
  | QItem.line _ => false
  | QItem.dict fields => fields.any (fun kv => kv.1 == "status")

/-- The status dictionaries present in a channel state. -/
def recordsOf (chan : List QItem) : List QItem := chan.filter isRecord

/-- The `{"status": "completed", "clips": blob_urls}` record of app.py line 229. -/
def completedRec (urls : List String) : QItem :=
  QItem.dict [("status", DVal.s "completed"), ("clips", DVal.arr urls)]

/-- A `{"status": "failed", "message": ...}` record (app.py lines 194 and 231). -/
def failedRec (message : String) : QItem :=
  QItem.dict [("status", DVal.s "failed"), ("message", DVal.s message)]

/-- The `{"status": "error", "message": ...}` record of app.py line 234. -/
def errorRec (message : String) : QItem :=
  QItem.dict [("status", DVal.s "error"), ("message", DVal.s message)]

/-- Response of the `/get_logs` endpoint: either `jsonify(item)` for a status dictionary
found while draining (the `record` constructor carries that dictionary's fields), or the
`{"status": "logging", "logs": logs}` payload carrying the drained non-status items. -/
inductive PollResp where
  | record (fields : List (String × DVal))
  | logging (logs : List QItem)
deriving DecidableEq

/-- Drain loop of `get_logs` (app.py lines 267-278): repeatedly `get_nowait` items; a
dictionary holding a "status" key is returned immediately as the response, leaving the
rest of the queue in place; anything else is appended to `logs`.  Returns the response
together with the remaining channel content. -/
def drainLoop : List QItem → List QItem → PollResp × List QItem
  | acc, [] => (PollResp.logging acc.reverse, [])
  | acc, QItem.line s :: rest => drainLoop (QItem.line s :: acc) rest
  | acc, QItem.dict fields :: rest =>
      if fields.any (fun kv => kv.1 == "status") then (PollResp.record fields, rest)
      else drainLoop (QItem.dict fields :: acc) rest

/-- The `/get_logs` endpoint (app.py lines 264-278) applied to a channel state. -/
def get_logs (chan : List QItem) : PollResp × List QItem := drainLoop [] chan

lemma recordsOf_nil_iff (l : List QItem) :
    recordsOf l = [] ↔ ∀ q ∈ l, isRecord q = false := by
  constructor
  · intro h q hq
    by_contra hq'
    have hmem : q ∈ recordsOf l := List.mem_filter.mpr ⟨hq, by simpa using hq'⟩
    rw [h] at hmem
    simp at hmem
  · intro h
    exact List.filter_eq_nil_iff.mpr (fun q hq => by simp [h q hq])

lemma drainLoop_no_record :
    ∀ chan acc, (∀ q ∈ chan, isRecord q = false) →
      drainLoop acc chan = (PollResp.logging (acc.reverse ++ chan), []) := by
  intro chan
  induction chan with
  | nil => intro acc _; simp [drainLoop]
  | cons q rest ih =>
      intro acc h
      have hq : isRecord q = false := h q (List.mem_cons_self _ _)
      have hrest : ∀ x ∈ rest, isRecord x = false := fun x hx => h x (List.mem_cons_of_mem _ hx)
      cases q with
      | line s =>
          rw [drainLoop, ih _ hrest]
          simp
      | dict fields =>
          have hf : fields.any (fun kv => kv.1 == "status") = false := by
            simpa [isRecord] using hq
          rw [drainLoop, if_neg (by simp [hf]), ih _ hrest]
          simp

lemma drainLoop_finds_record :
    ∀ pre acc fields post, (∀ q ∈ pre, isRecord q = false) →
      fields.any (fun kv => kv.1 == "status") = true →
      drainLoop acc (pre ++ QItem.dict fields :: post) = (PollResp.record fields, post) := by
  intro pre
  induction pre with
  | nil => intro acc fields post _ hf; rw [List.nil_append, drainLoop, if_pos hf]
  | cons q rest ih =>
      intro acc fields post h hf
      have hq : isRecord q = false := h q (List.mem_cons_self _ _)
      have hrest : ∀ x ∈ rest, isRecord x = false := fun x hx => h x (List.mem_cons_of_mem _ hx)
      cases q with
      | line s => rw [List.cons_append, drainLoop, ih _ _ _ hrest hf]
      | dict f =>
          have hf0 : f.any (fun kv => kv.1 == "status") = false := by
            simpa [isRecord] using hq
          rw [List.cons_append, drainLoop, if_neg (by simp [hf0]), ih _ _ _ hrest hf]

/-- Complete characterization of one poll: either the channel holds no status record and the
poll delivers every queued item as log lines, emptying the channel; or the poll returns the
first status record, dropping the lines queued before it and leaving everything after it. -/
lemma get_logs_char (chan : List QItem) :
    ((∀ q ∈ chan, isRecord q = false) ∧ get_logs chan = (PollResp.logging chan, [])) ∨
    (∃ pre fields post,
        chan = pre ++ QItem.dict fields :: post ∧ (∀ q ∈ pre, isRecord q = false) ∧
        fields.any (fun kv => kv.1 == "status") = true ∧
        get_logs chan = (PollResp.record fields, post)) := by
  induction chan with
  | nil => left; exact ⟨by simp, by simp [get_logs, drainLoop]⟩
  | cons q rest ih =>
      by_cases hq : isRecord q = true
      · right
        obtain ⟨fields, rfl⟩ : ∃ fields, q = QItem.dict fields := by
          cases q with
          | line s => simp [isRecord] at hq
          | dict fields => exact ⟨fields, rfl⟩
        have hf : fields.any (fun kv => kv.1 == "status") = true := by
          simpa [isRecord] using hq
        exact ⟨[], fields, rest, by simp, by simp, hf,
          drainLoop_finds_record [] [] fields rest (by simp) hf⟩
      · have hq' : isRecord q = false := by simpa using hq
        rcases ih with ⟨hrest, -⟩ | ⟨pre, fields, post, hchan, hpre, hf, -⟩
        · left
          have hall : ∀ x ∈ q :: rest, isRecord x = false := by
            intro x hx
            rcases List.mem_cons.mp hx with rfl | hx'
            · exact hq'
            · exact hrest x hx'
          exact ⟨hall, drainLoop_no_record (q :: rest) [] hall⟩
        · right
          have hpre' : ∀ x ∈ q :: pre, isRecord x = false := by
            intro x hx
            rcases List.mem_cons.mp hx with rfl | hx'
            · exact hq'
            · exact hpre x hx'
          refine ⟨q :: pre, fields, post, by rw [hchan, List.cons_append], hpre', hf, ?_⟩
          show drainLoop [] (q :: rest) = (PollResp.record fields, post)
          rw [hchan, ← List.cons_append]
          exact drainLoop_finds_record (q :: pre) [] fields post hpre' hf

/-- Observable side-effect events of one job run, used to state ordering properties:
a render attempt (`write_videofile`, app.py line 149) for segment `i`, a publish attempt
(`put`, line 177) for a local path, and a deletion attempt (`os.remove`, lines 216/223)
for a local path.  The download attempt is the yt-dlp invocation of line 69. -/
inductive Ev where
  | downloadAttempt
  | renderAttempt (i : ℕ)
  | publishAttempt (p : String)
  | cleanupAttempt (p : String)
deriving DecidableEq

/-- Mutable state touched by one job run: the global `log_queue` contents and the set of
temporary files on disk, plus the instrumentation trace of collaborator calls. -/
structure St where
  chan : List QItem
  disk : List String
  events : List Ev
deriving DecidableEq

/-- `log_queue.put(item)`. -/
def St.put (st : St) (q : QItem) : St := { st with chan := st.chan ++ [q] }

/-- `log_message` (app.py lines 34-36): print and enqueue the line. -/
def log_message (m : String) (st : St) : St := St.put st (QItem.line m)

/-- Record a collaborator-call event. -/
def St.ev (st : St) (e : Ev) : St := { st with events := st.events ++ [e] }

/-- A file appears on disk. -/
def St.create (st : St) (p : String) : St := { st with disk := st.disk ++ [p] }

/-- `os.path.exists(p)`. -/
def St.existsFile (st : St) (p : String) : Bool := decide (p ∈ st.disk)

/-- `os.remove(p)` succeeding: the path disappears from disk. -/
def St.rm (st : St) (p : String) : St :=
  { st with disk := st.disk.filter (fun q => q != p) }

/-- Outcomes of the external collaborators for one job run, as the spec's collaborator
contracts describe them.  `downloadRes` is the outcome of source acquisition
(`Except.error m`: an exception escaping `download_youtube_video_to_temp`;
`Except.ok none`: the handled download failure returning `None`; `Except.ok (some p)`: a
finished download at local path `p`).  `loadOk` is whether `VideoFileClip(video_path)`
succeeds (app.py line 102), `duration` the probed duration (line 108), `frameW`/`frameH`
the source frame size.  `segExn i` models an exception raised by the moviepy
subclip/crop/resize calls of lines 131-142 while processing segment `i` (these are outside
any `try`), `renderOk i` whether `write_videofile` for segment `i` succeeds, `clipPath i`
the fresh timestamped output filename of line 144 for segment `i`, `uploadRes p` the Vercel
Blob `put` outcome for path `p` (all its exceptions are caught at line 180), and
`removeOk p` whether `os.remove(p)` succeeds when the file exists. -/
structure Env where
  downloadRes : Except String (Option String)
  loadOk : Bool
  duration : ℚ
  frameW : ℕ
  frameH : ℕ
  segExn : ℕ → Option String
  renderOk : ℕ → Bool
  clipPath : ℕ → String
  uploadRes : String → Except String String
  removeOk : String → Bool

/-- `download_youtube_video_to_temp` (app.py lines 52-95).  The yt-dlp subprocess and the
destination parsing are the excluded source-acquisition collaborator; its outcome is
`Env.downloadRes`.  On success the downloaded file exists at the returned path (the
function verifies existence at lines 79/91 before returning it). -/
def download_youtube_video_to_temp (env : Env) (st : St) : St × Except String (Option String) :=
  let st := log_message "--- Downloading YouTube video ---" st
  let st := log_message "Saving temporarily to the system temp dir" st
  let st := St.ev st Ev.downloadAttempt
  match env.downloadRes with
  | Except.error m => (st, Except.error m)
  | Except.ok none =>
      (log_message "Error downloading video with yt-dlp" st, Except.ok none)
  | Except.ok (some p) =>
      (St.put (St.create st p) (QItem.line ("Download complete! Temp file at: " ++ p)),
       Except.ok (some p))

/-- Body of one iteration of the clip loop once a window has been fixed (app.py lines
129-161): log, subclip/crop/resize (which may raise, `Env.segExn`), then try
`write_videofile`; on success the clip file appears on disk and its path is appended to
the accumulator, on failure the error is logged and the segment is skipped. -/
def renderSegment (env : Env) (i : ℕ) (startT endT : ℚ) (acc : List String) (cnt : ℕ)
    (st : St) : St × Except String (List String × ℕ) :=
  let st := log_message ("Generating clip " ++ toString (i + 1) ++ " from " ++ toString startT
      ++ "s to " ++ toString endT ++ "s...") st
  match env.segExn i with
  | some m => (st, Except.error m)
  | none =>
      let _geom := fitOps env.frameW env.frameH SHORT_VIDEO_WIDTH SHORT_VIDEO_HEIGHT
      let p := env.clipPath i
      let st := log_message ("Rendering clip " ++ toString (i + 1) ++ " to: " ++ p) st
      let st := St.ev st (Ev.renderAttempt i)
      if env.renderOk i then
        let st := St.put (St.create st p)
            (QItem.line ("Clip " ++ toString (i + 1) ++ " generated successfully (temp)! " ++ p))
        (st, Except.ok (acc ++ [p], cnt + 1))
      else
        let st := log_message ("Error rendering clip " ++ toString (i + 1)) st
        let st := log_message
            "This often indicates an issue with FFmpeg or specific video codec problems during MoviePy rendering." st
        (st, Except.ok (acc, cnt))

/-- The `for i in range(num_clips)` loop of `generate_short_clips_to_temp` (app.py lines
115-162), with the same window arithmetic as `planAux`. -/
def clipsLoop (env : Env) (dur d : ℚ) :
    ℕ → ℕ → List String → ℕ → St → St × Except String (List String × ℕ)
  | 0, _i, acc, cnt, st => (st, Except.ok (acc, cnt))
  | fuel + 1, i, acc, cnt, st =>
      let startT : ℚ := (i : ℚ) * d
      let stopT : ℚ := startT + d
      if dur ≤ startT then
        (log_message ("Reached end of video. Generated " ++ toString cnt ++ " clips.") st,
         Except.ok (acc, cnt))
      else if dur < stopT then
        if dur - startT < d / 2 then
          (log_message ("Remaining video segment (" ++ toString (dur - startT)
              ++ "s) is too short. Stopping.") st,
           Except.ok (acc, cnt))
        else
          let r := renderSegment env i startT dur acc cnt st
          match r.2 with
          | Except.error m => (r.1, Except.error m)
          | Except.ok (acc2, cnt2) => clipsLoop env dur d fuel (i + 1) acc2 cnt2 r.1
      else
        let r := renderSegment env i startT stopT acc cnt st
        match r.2 with
        | Except.error m => (r.1, Except.error m)
        | Except.ok (acc2, cnt2) => clipsLoop env dur d fuel (i + 1) acc2 cnt2 r.1

/-- `generate_short_clips_to_temp` (app.py lines 97-164): load the full clip (failure is
caught and yields an empty path list), probe the duration, run the clip loop, log the
final count.  An exception escaping the loop's moviepy calls propagates to the caller. -/
def generate_short_clips_to_temp (env : Env) (video_path : String) (clip_duration : ℚ)
    (num_clips : ℕ) (st : St) : St × Except String (List String) :=
  let st := log_message ("--- Processing video: " ++ video_path ++ " ---") st
  if env.loadOk then
    let st := log_message ("Full video duration: " ++ toString env.duration ++ " seconds.") st
    let r := clipsLoop env env.duration clip_duration num_clips 0 [] 0 st
    match r.2 with
    | Except.error m => (r.1, Except.error m)
    | Except.ok (paths, cnt) =>
        (log_message ("--- Finished generating " ++ toString cnt ++ " temporary clips. ---") r.1,
         Except.ok paths)
  else
    let st := log_message ("Error loading full video clip from " ++ video_path) st
    let st := log_message
        "This might be due to a corrupted download or an unsupported video format." st
    (st, Except.ok [])

/-- `upload_to_vercel_blob` (app.py lines 166-182): verify the local file exists, then try
`put`; every `put` exception is caught and turned into `None`. -/
def upload_to_vercel_blob (env : Env) (p : String) (st : St) : St × Option String :=
  if St.existsFile st p then
    let st := log_message ("Uploading " ++ p ++ " to Vercel Blob...") st
    let st := St.ev st (Ev.publishAttempt p)
    match env.uploadRes p with
    | Except.ok url => (log_message ("Uploaded to Vercel Blob: " ++ url) st, some url)
    | Except.error m =>
        (log_message ("Error uploading " ++ p ++ " to Vercel Blob: " ++ m) st, none)
  else
    (log_message ("Error: Local file " ++ p ++ " not found for upload to Vercel Blob.") st, none)

/-- The `try: os.remove(path) ... except OSError` pattern of app.py lines 215-219 and
222-226: the removal is attempted; if the file exists and the collaborator succeeds it is
deleted and the success line logged, otherwise the error line is logged. -/
def tryRemove (env : Env) (p : String) (okMsg errMsg : String) (st : St) : St :=
  let st := St.ev st (Ev.cleanupAttempt p)
  if St.existsFile st p && env.removeOk p then log_message okMsg (St.rm st p)
  else log_message errMsg st

/-- The upload loop of `process_video_task` (app.py lines 210-219): for each rendered clip
path, upload it, collect the URL on success, then always attempt to delete the local copy
immediately afterwards. -/
def uploadLoop (env : Env) : List String → List String → St → St × List String
  | [], urls, st => (st, urls)
  | p :: rest, urls, st =>
      let u := upload_to_vercel_blob env p st
      let urls2 := match u.2 with
        | some url => urls ++ [url]
        | none => urls
      let st2 := tryRemove env p ("Cleaned up temporary clip file: " ++ p)
          ("Error cleaning up temp clip file " ++ p) u.1
      uploadLoop env rest urls2 st2

/-- The download-failure exit of `process_video_task` (app.py lines 193-196): enqueue the
failed record, then `log_message` the same text (a further queue write), then return. -/
def downloadFailedExit (st : St) : St :=
  log_message "Failed to download the YouTube video. Cannot generate clips."
    (St.put st (failedRec "Failed to download the YouTube video. Cannot generate clips."))

/-- Body of `process_video_task`'s `try` block (app.py lines 189-231): download, check the
file exists, generate clips, upload each clip (deleting local copies), delete the
downloaded source, then enqueue the terminal record — `completed` with the collected blob
URLs if any, else `failed`.  An `Except.error` carries an exception escaping to the
handler of line 233. -/
def process_body (env : Env) (st : St) : St × Except String Unit :=
  let r := download_youtube_video_to_temp env st
  match r.2 with
  | Except.error m => (r.1, Except.error m)
  | Except.ok none => (downloadFailedExit r.1, Except.ok ())
  | Except.ok (some p) =>
      if St.existsFile r.1 p then
        let g := generate_short_clips_to_temp env p CLIP_DURATION_SECONDS
            NUM_CLIPS_TO_GENERATE r.1
        match g.2 with
        | Except.error m => (g.1, Except.error m)
        | Except.ok paths =>
            let u :=
              if paths.isEmpty then (g.1, ([] : List String))
              else uploadLoop env paths []
                  (log_message "--- Uploading generated clips to Vercel Blob ---" g.1)
            let st4 := tryRemove env p ("Cleaned up temporary downloaded video: " ++ p)
                ("Error cleaning up temp downloaded video " ++ p) u.1
            if u.2.isEmpty then
              (St.put st4 (failedRec "No clips were generated or uploaded to Vercel Blob."),
               Except.ok ())
            else
              (St.put st4 (completedRec u.2), Except.ok ())
      else (downloadFailedExit r.1, Except.ok ())

/-- `process_video_task` (app.py lines 184-235): run the body; any uncaught exception is
caught by the `except` handler which enqueues the error record and then logs one more
line (a further queue write). -/
def process_video_task (env : Env) (st : St) : St :=
  let b := process_body env st
  match b.2 with
  | Except.ok _ => b.1
  | Except.error m =>
      log_message ("An unexpected error occurred in processing task: " ++ m)
        (St.put b.1 (errorRec ("An unexpected error occurred: " ++ m)))

/-- One job run observed from a fresh channel/disk: exactly the writes and effects of
`process_video_task` itself. -/
def runJob (env : Env) : St :=
  process_video_task env { chan := [], disk := [], events := [] }

/-- `/generate_clips` response (app.py lines 242-262): either the validation-error payload
or the accepted `processing` payload. -/
inductive SubmitResp where
  | errorResp (message : String)
  | processing (message : String)
deriving DecidableEq

/-- Scheme qualification as the submission validator defines it (app.py line 246): the
reference is an absolute `http://` or `https://` URL. -/
def schemeQualified (link : String) : Bool :=
  "http://".data.isPrefixOf link.data || "https://".data.isPrefixOf link.data

/-- The three informational lines `/generate_clips` enqueues after draining the channel
(app.py lines 255-257). -/
def startNotes : List QItem :=
  [QItem.line "Starting video processing...",
   QItem.line "NOTE: Video processing is resource-intensive and may take time. Please monitor logs.",
   QItem.line "NOTE: Serverless functions have time limits (e.g., 5 min). Long videos might time out."]

/-- `/generate_clips` (app.py lines 242-262) applied to a submitted link and the current
channel state.  Validation happens first and synchronously: an empty or non http(s) link
is rejected with the channel untouched and no thread started.  Otherwise the channel is
drained, the three notes are enqueued, the worker thread is started (the returned flag)
and the `processing` response is returned immediately, independent of the job's outcome. -/
def generate_clips (youtube_link : String) (chan : List QItem) :
    SubmitResp × List QItem × Bool :=
  if youtube_link == "" || !(schemeQualified youtube_link) then
    (SubmitResp.errorResp "Invalid YouTube link provided.", chan, false)
  else
    (SubmitResp.processing "Video generation started. Check logs for updates.",
     startNotes, true)

/-- Indices of the windows the clip loop processes when started at index `i` with `fuel`
iterations left: consecutive indices, one per emitted planner window. -/
def segIdxs (dur d : ℚ) (fuel i : ℕ) : List ℕ := List.range' i (planAux dur d fuel i).length

/-- Output paths of the successfully rendered clips among those windows. -/
def segPaths (env : Env) (dur d : ℚ) (fuel i : ℕ) : List String :=
  ((segIdxs dur d fuel i).filter (fun j => env.renderOk j)).map env.clipPath

/-- Segment indices one full job processes (none when the video fails to load). -/
def jobSegIdxs (env : Env) : List ℕ :=
  if env.loadOk then segIdxs env.duration CLIP_DURATION_SECONDS NUM_CLIPS_TO_GENERATE 0 else []

/-- Local paths of the clips one full job renders successfully, in planned order. -/
def jobPaths (env : Env) : List String :=
  ((jobSegIdxs env).filter (fun j => env.renderOk j)).map env.clipPath

/-- Blob URLs of the clips one full job publishes successfully, in planned order: the
upload successes among the rendered clips. -/
def jobUrls (env : Env) : List String :=
  (jobPaths env).filterMap (fun p => (env.uploadRes p).toOption)

/-- Publish/cleanup event pairs of the upload loop, one pair per rendered clip, in order. -/
def pubEvents : List String → List Ev
  | [] => []
  | p :: rest => Ev.publishAttempt p :: Ev.cleanupAttempt p :: pubEvents rest

/-- Disk contents after the upload loop's per-clip `os.remove` calls over `paths`. -/
def removeAll (env : Env) : List String → List String → List String
  | [], dsk => dsk
  | p :: rest, dsk =>
      removeAll env rest (if env.removeOk p then dsk.filter (fun q => q != p) else dsk)

/-- The downloaded source path, when acquisition succeeds. -/
def Env.dlPath (env : Env) : Option String :=
  match env.downloadRes with
  | Except.ok (some p) => some p
  | _ => none

/-- Well-formedness of the collaborator naming, true of the real filenames: the timestamped
`short_clip_{i+1}_...` names of distinct segments are distinct, and never collide with the
`full_video_...` download name. -/
abbrev Env.wfUpTo (env : Env) (n : ℕ) : Prop :=
  (∀ i < n, ∀ j < n, env.clipPath i = env.clipPath j → i = j) ∧
  (∀ i < n, env.dlPath ≠ some (env.clipPath i))

/-- No uncaught moviepy exception occurs at any processed segment. -/
abbrev NoFault (env : Env) : Prop :=
  ∀ i < NUM_CLIPS_TO_GENERATE, env.segExn i = none

lemma renderSegment_spec (env : Env) (i : ℕ) (startT endT : ℚ) (acc : List String) (cnt : ℕ)
    (st : St) (h : env.segExn i = none) :
    ∃ lines, (∀ q ∈ lines, ∃ s, q = QItem.line s) ∧
      renderSegment env i startT endT acc cnt st =
        ({ chan := st.chan ++ lines,
           disk := st.disk ++ (if env.renderOk i then [env.clipPath i] else []),
           events := st.events ++ [Ev.renderAttempt i] },
         Except.ok (acc ++ (if env.renderOk i then [env.clipPath i] else []),
           cnt + (if env.renderOk i then 1 else 0))) := by
  cases hro : env.renderOk i with
  | true =>
      refine ⟨[QItem.line ("Generating clip " ++ toString (i + 1) ++ " from " ++ toString startT
            ++ "s to " ++ toString endT ++ "s..."),
          QItem.line ("Rendering clip " ++ toString (i + 1) ++ " to: " ++ env.clipPath i),
          QItem.line ("Clip " ++ toString (i + 1) ++ " generated successfully (temp)! "
            ++ env.clipPath i)], ?_, ?_⟩
      · intro q hq
        simp only [List.mem_cons, List.not_mem_nil, or_false] at hq
        rcases hq with rfl | rfl | rfl <;> exact ⟨_, rfl⟩
      · simp [renderSegment, h, hro, log_message, St.put, St.ev, St.create]
  | false =>
      refine ⟨[QItem.line ("Generating clip " ++ toString (i + 1) ++ " from " ++ toString startT
            ++ "s to " ++ toString endT ++ "s..."),
          QItem.line ("Rendering clip " ++ toString (i + 1) ++ " to: " ++ env.clipPath i),
          QItem.line ("Error rendering clip " ++ toString (i + 1)),
          QItem.line "This often indicates an issue with FFmpeg or specific video codec problems during MoviePy rendering."],
          ?_, ?_⟩
      · intro q hq
        simp only [List.mem_cons, List.not_mem_nil, or_false] at hq
        rcases hq with rfl | rfl | rfl | rfl <;> exact ⟨_, rfl⟩
      · simp [renderSegment, h, hro, log_message, St.put, St.ev, St.create]

lemma clipsLoop_ok (env : Env) (dur d : ℚ) :
    ∀ fuel i acc cnt st, (∀ j, j < fuel → env.segExn (i + j) = none) →
      ∃ lines cnt2, (∀ q ∈ lines, ∃ s, q = QItem.line s) ∧
        clipsLoop env dur d fuel i acc cnt st =
          ({ chan := st.chan ++ lines,
             disk := st.disk ++ segPaths env dur d fuel i,
             events := st.events ++ (segIdxs dur d fuel i).map Ev.renderAttempt },
           Except.ok (acc ++ segPaths env dur d fuel i, cnt2)) := by
  intro fuel
  induction fuel with
  | zero =>
      intro i acc cnt st _
      refine ⟨[], cnt, by simp, ?_⟩
      simp [clipsLoop, segPaths, segIdxs, planAux]
  | succ n ih =>
      intro i acc cnt st hseg
      by_cases h1 : dur ≤ (i : ℚ) * d
      · refine ⟨[QItem.line ("Reached end of video. Generated " ++ toString cnt
            ++ " clips.")], cnt, ?_, ?_⟩
        · intro q hq
          simp only [List.mem_cons, List.not_mem_nil, or_false] at hq
          subst hq; exact ⟨_, rfl⟩
        · have hplan : planAux dur d (n + 1) i = [] := by
            simp only [planAux, if_pos h1]
          simp only [clipsLoop, if_pos h1]
          simp [segPaths, segIdxs, hplan, log_message, St.put]
      · by_cases h2 : dur < (i : ℚ) * d + d
        · by_cases h3 : dur - (i : ℚ) * d < d / 2
          · refine ⟨[QItem.line ("Remaining video segment (" ++ toString (dur - (i : ℚ) * d)
                ++ "s) is too short. Stopping.")], cnt, ?_, ?_⟩
            · intro q hq
              simp only [List.mem_cons, List.not_mem_nil, or_false] at hq
              subst hq; exact ⟨_, rfl⟩
            · have hplan : planAux dur d (n + 1) i = [] := by
                simp only [planAux, if_neg h1, if_pos h2, if_pos h3]
              simp only [clipsLoop, if_neg h1, if_pos h2, if_pos h3]
              simp [segPaths, segIdxs, hplan, log_message, St.put]
          · have hplan : planAux dur d (n + 1) i
                = ((i : ℚ) * d, dur) :: planAux dur d n (i + 1) := by
              simp only [planAux, if_neg h1, if_pos h2, if_neg h3]
            have hidx : segIdxs dur d (n + 1) i = i :: segIdxs dur d n (i + 1) := by
              simp [segIdxs, hplan, List.range'_succ]
            have hpaths : segPaths env dur d (n + 1) i =
                (if env.renderOk i then [env.clipPath i] else [])
                  ++ segPaths env dur d n (i + 1) := by
              cases hro : env.renderOk i <;> simp [segPaths, hidx, List.filter_cons, hro]
            obtain ⟨ls, hls, hr⟩ := renderSegment_spec env i ((i : ℚ) * d) dur acc cnt st
              (by simpa using hseg 0 (Nat.succ_pos n))
            obtain ⟨lines', cnt2, hlines', hrec⟩ :=
              ih (i + 1) (acc ++ (if env.renderOk i then [env.clipPath i] else []))
                (cnt + (if env.renderOk i then 1 else 0))
                { chan := st.chan ++ ls,
                  disk := st.disk ++ (if env.renderOk i then [env.clipPath i] else []),
                  events := st.events ++ [Ev.renderAttempt i] }
                (fun j hj => by
                  have h := hseg (j + 1) (by omega)
                  rwa [show i + (j + 1) = i + 1 + j from by omega] at h)
            refine ⟨ls ++ lines', cnt2, ?_, ?_⟩
            · intro q hq
              rcases List.mem_append.mp hq with h | h
              exacts [hls q h, hlines' q h]
            · simp only [clipsLoop, if_neg h1, if_pos h2, if_neg h3]
              rw [hr]
              simp only []
              rw [hrec]
              simp [hpaths, hidx, List.append_assoc]
        · have hplan : planAux dur d (n + 1) i
              = ((i : ℚ) * d, (i : ℚ) * d + d) :: planAux dur d n (i + 1) := by
            simp only [planAux, if_neg h1, if_neg h2]
          have hidx : segIdxs dur d (n + 1) i = i :: segIdxs dur d n (i + 1) := by
            simp [segIdxs, hplan, List.range'_succ]
          have hpaths : segPaths env dur d (n + 1) i =
              (if env.renderOk i then [env.clipPath i] else [])
                ++ segPaths env dur d n (i + 1) := by
            cases hro : env.renderOk i <;> simp [segPaths, hidx, List.filter_cons, hro]
          obtain ⟨ls, hls, hr⟩ := renderSegment_spec env i ((i : ℚ) * d) ((i : ℚ) * d + d)
            acc cnt st (by simpa using hseg 0 (Nat.succ_pos n))
          obtain ⟨lines', cnt2, hlines', hrec⟩ :=
            ih (i + 1) (acc ++ (if env.renderOk i then [env.clipPath i] else []))
              (cnt + (if env.renderOk i then 1 else 0))
              { chan := st.chan ++ ls,
                disk := st.disk ++ (if env.renderOk i then [env.clipPath i] else []),
                events := st.events ++ [Ev.renderAttempt i] }
              (fun j hj => by
                have h := hseg (j + 1) (by omega)
                rwa [show i + (j + 1) = i + 1 + j from by omega] at h)
          refine ⟨ls ++ lines', cnt2, ?_, ?_⟩
          · intro q hq
            rcases List.mem_append.mp hq with h | h
            exacts [hls q h, hlines' q h]
          · simp only [clipsLoop, if_neg h1, if_neg h2]
            rw [hr]
            simp only []
            rw [hrec]
            simp [hpaths, hidx, List.append_assoc]

lemma removeAll_subset (env : Env) :
    ∀ paths dsk q, q ∈ removeAll env paths dsk → q ∈ dsk := by
  intro paths
  induction paths with
  | nil => intro dsk q h; simpa [removeAll] using h
  | cons p rest ih =>
      intro dsk q h
      rw [removeAll] at h
      have h' := ih _ q h
      by_cases hrm : env.removeOk p = true
      · rw [if_pos hrm] at h'
        exact List.mem_of_mem_filter h'
      · rwa [if_neg hrm] at h'

lemma removeAll_removed (env : Env) :
    ∀ paths dsk q, q ∈ paths → env.removeOk q = true → q ∉ removeAll env paths dsk := by
  intro paths
  induction paths with
  | nil => intro dsk q h _ _; simp at h
  | cons p rest ih =>
      intro dsk q hq hrm hmem
      rw [removeAll] at hmem
      rcases List.mem_cons.mp hq with rfl | hq'
      · rw [if_pos hrm] at hmem
        have h1 := removeAll_subset env rest _ q hmem
        have h2 := (List.mem_filter.mp h1).2
        simp at h2
      · exact ih _ q hq' hrm hmem

lemma removeAll_keeps (env : Env) :
    ∀ paths dsk q, q ∈ dsk → q ∉ paths → q ∈ removeAll env paths dsk := by
  intro paths
  induction paths with
  | nil => intro dsk q h _; simpa [removeAll] using h
  | cons p rest ih =>
      intro dsk q hq hnp
      rw [removeAll]
      refine ih _ q ?_ (fun h => hnp (List.mem_cons_of_mem _ h))
      by_cases hrm : env.removeOk p = true
      · rw [if_pos hrm]
        refine List.mem_filter.mpr ⟨hq, ?_⟩
        exact bne_iff_ne.mpr (fun h => hnp (h ▸ List.mem_cons_self _ _))
      · rwa [if_neg hrm]

lemma pubEvents_mem (p : String) :
    ∀ paths, p ∈ paths → Ev.publishAttempt p ∈ pubEvents paths ∧
      Ev.cleanupAttempt p ∈ pubEvents paths := by
  intro paths
  induction paths with
  | nil => intro h; simp at h
  | cons q rest ih =>
      intro h
      rcases List.mem_cons.mp h with rfl | h'
      · constructor <;> simp [pubEvents]
      · obtain ⟨h1, h2⟩ := ih h'
        constructor <;> simp [pubEvents, h1, h2]

lemma jobSegIdxs_lt (env : Env) : ∀ j ∈ jobSegIdxs env, j < NUM_CLIPS_TO_GENERATE := by
  intro j hj
  unfold jobSegIdxs at hj
  split at hj
  · unfold segIdxs at hj
    have hlen := planAux_length_le (T := env.duration) (d := CLIP_DURATION_SECONDS)
      NUM_CLIPS_TO_GENERATE 0
    have hj' := List.mem_range'_1.mp hj
    omega
  · simp at hj

lemma jobSegIdxs_nodup (env : Env) : (jobSegIdxs env).Nodup := by
  unfold jobSegIdxs
  split
  · unfold segIdxs
    rw [← List.range_eq_range']
    exact List.nodup_range _
  · simp

lemma jobPaths_nodup (env : Env) (hwf : Env.wfUpTo env NUM_CLIPS_TO_GENERATE) :
    (jobPaths env).Nodup := by
  unfold jobPaths
  refine List.Nodup.map_on ?_ ((jobSegIdxs_nodup env).filter _)
  intro x hx y hy hxy
  exact hwf.1 x (jobSegIdxs_lt env x (List.mem_of_mem_filter hx)) y
    (jobSegIdxs_lt env y (List.mem_of_mem_filter hy)) hxy

lemma jobPaths_mem (env : Env) :
    ∀ q ∈ jobPaths env, ∃ j, j < NUM_CLIPS_TO_GENERATE ∧ q = env.clipPath j := by
  intro q hq
  unfold jobPaths at hq
  obtain ⟨j, hj, rfl⟩ := List.mem_map.mp hq
  exact ⟨j, jobSegIdxs_lt env j (List.mem_of_mem_filter hj), rfl⟩

lemma tryRemove_spec (env : Env) (p : String) (okMsg errMsg : String) (st : St)
    (hp : p ∈ st.disk) :
    tryRemove env p okMsg errMsg st =
      if env.removeOk p = true then
        { chan := st.chan ++ [QItem.line okMsg],
          disk := st.disk.filter (fun q => q != p),
          events := st.events ++ [Ev.cleanupAttempt p] }
      else
        { chan := st.chan ++ [QItem.line errMsg],
          disk := st.disk,
          events := st.events ++ [Ev.cleanupAttempt p] } := by
  cases hrm : env.removeOk p <;>
    simp [tryRemove, St.existsFile, hp, hrm, St.ev, St.rm, log_message, St.put]

lemma uploadLoop_spec (env : Env) :
    ∀ paths urls st, (∀ p ∈ paths, p ∈ st.disk) → paths.Nodup →
      ∃ lines, (∀ q ∈ lines, ∃ s, q = QItem.line s) ∧
        uploadLoop env paths urls st =
          ({ chan := st.chan ++ lines,
             disk := removeAll env paths st.disk,
             events := st.events ++ pubEvents paths },
           urls ++ paths.filterMap (fun p => (env.uploadRes p).toOption)) := by
  intro paths
  induction paths with
  | nil =>
      intro urls st _ _
      exact ⟨[], by simp, by simp [uploadLoop, removeAll, pubEvents]⟩
  | cons p rest ih =>
      intro urls st hdisk hnd
      have hp : p ∈ st.disk := hdisk p (List.mem_cons_self _ _)
      have hex : St.existsFile st p = true := by simp [St.existsFile, hp]
      have hnd' : rest.Nodup := (List.nodup_cons.mp hnd).2
      have hpn : p ∉ rest := (List.nodup_cons.mp hnd).1
      have hrestdisk : ∀ q ∈ rest, q ∈ st.disk :=
        fun q hq => hdisk q (List.mem_cons_of_mem _ hq)
      cases hup : env.uploadRes p with
      | ok url =>
          have hu : upload_to_vercel_blob env p st =
              ({ chan := st.chan ++ [QItem.line ("Uploading " ++ p ++ " to Vercel Blob..."),
                   QItem.line ("Uploaded to Vercel Blob: " ++ url)],
                 disk := st.disk, events := st.events ++ [Ev.publishAttempt p] },
               some url) := by
            simp [upload_to_vercel_blob, hex, hup, log_message, St.put, St.ev]
          cases hrm : env.removeOk p with
          | true =>
              have htr : tryRemove env p ("Cleaned up temporary clip file: " ++ p)
                  ("Error cleaning up temp clip file " ++ p)
                  { chan := st.chan ++ [QItem.line ("Uploading " ++ p ++ " to Vercel Blob..."),
                      QItem.line ("Uploaded to Vercel Blob: " ++ url)],
                    disk := st.disk, events := st.events ++ [Ev.publishAttempt p] } =
                  { chan := st.chan ++ [QItem.line ("Uploading " ++ p ++ " to Vercel Blob..."),
                      QItem.line ("Uploaded to Vercel Blob: " ++ url),
                      QItem.line ("Cleaned up temporary clip file: " ++ p)],
                    disk := st.disk.filter (fun q => q != p),
                    events := st.events ++ [Ev.publishAttempt p, Ev.cleanupAttempt p] } := by
                simp [tryRemove, St.existsFile, hp, hrm, St.ev, St.rm, log_message, St.put,
                  List.append_assoc]
              obtain ⟨lines, hlines, hrec⟩ := ih (urls ++ [url])
                { chan := st.chan ++ [QItem.line ("Uploading " ++ p ++ " to Vercel Blob..."),
                    QItem.line ("Uploaded to Vercel Blob: " ++ url),
                    QItem.line ("Cleaned up temporary clip file: " ++ p)],
                  disk := st.disk.filter (fun q => q != p),
                  events := st.events ++ [Ev.publishAttempt p, Ev.cleanupAttempt p] }
                (fun q hq => List.mem_filter.mpr ⟨hrestdisk q hq,
                  bne_iff_ne.mpr (fun h => hpn (h ▸ hq))⟩)
                hnd'
              refine ⟨[QItem.line ("Uploading " ++ p ++ " to Vercel Blob..."),
                  QItem.line ("Uploaded to Vercel Blob: " ++ url),
                  QItem.line ("Cleaned up temporary clip file: " ++ p)] ++ lines, ?_, ?_⟩
              · intro q hq
                rcases List.mem_append.mp hq with h | h
                · simp only [List.mem_cons, List.not_mem_nil, or_false] at h
                  rcases h with rfl | rfl | rfl <;> exact ⟨_, rfl⟩
                · exact hlines q h
              · rw [uploadLoop, hu]
                simp only []
                rw [htr, hrec]
                simp [removeAll, hrm, pubEvents, hup, Except.toOption, List.append_assoc]
          | false =>
              have htr : tryRemove env p ("Cleaned up temporary clip file: " ++ p)
                  ("Error cleaning up temp clip file " ++ p)
                  { chan := st.chan ++ [QItem.line ("Uploading " ++ p ++ " to Vercel Blob..."),
                      QItem.line ("Uploaded to Vercel Blob: " ++ url)],
                    disk := st.disk, events := st.events ++ [Ev.publishAttempt p] } =
                  { chan := st.chan ++ [QItem.line ("Uploading " ++ p ++ " to Vercel Blob..."),
                      QItem.line ("Uploaded to Vercel Blob: " ++ url),
                      QItem.line ("Error cleaning up temp clip file " ++ p)],
                    disk := st.disk,
                    events := st.events ++ [Ev.publishAttempt p, Ev.cleanupAttempt p] } := by
                simp [tryRemove, St.existsFile, hp, hrm, St.ev, St.rm, log_message, St.put,
                  List.append_assoc]
              obtain ⟨lines, hlines, hrec⟩ := ih (urls ++ [url])
                { chan := st.chan ++ [QItem.line ("Uploading " ++ p ++ " to Vercel Blob..."),
                    QItem.line ("Uploaded to Vercel Blob: " ++ url),
                    QItem.line ("Error cleaning up temp clip file " ++ p)],
                  disk := st.disk,
                  events := st.events ++ [Ev.publishAttempt p, Ev.cleanupAttempt p] }
                hrestdisk hnd'
              refine ⟨[QItem.line ("Uploading " ++ p ++ " to Vercel Blob..."),
                  QItem.line ("Uploaded to Vercel Blob: " ++ url),
                  QItem.line ("Error cleaning up temp clip file " ++ p)] ++ lines, ?_, ?_⟩
              · intro q hq
                rcases List.mem_append.mp hq with h | h
                · simp only [List.mem_cons, List.not_mem_nil, or_false] at h
                  rcases h with rfl | rfl | rfl <;> exact ⟨_, rfl⟩
                · exact hlines q h
              · rw [uploadLoop, hu]
                simp only []
                rw [htr, hrec]
                simp [removeAll, hrm, pubEvents, hup, Except.toOption, List.append_assoc]
      | error m =>
          have hu : upload_to_vercel_blob env p st =
              ({ chan := st.chan ++ [QItem.line ("Uploading " ++ p ++ " to Vercel Blob..."),
                   QItem.line ("Error uploading " ++ p ++ " to Vercel Blob: " ++ m)],
                 disk := st.disk, events := st.events ++ [Ev.publishAttempt p] },
               none) := by
            simp [upload_to_vercel_blob, hex, hup, log_message, St.put, St.ev]
          cases hrm : env.removeOk p with
          | true =>
              have htr : tryRemove env p ("Cleaned up temporary clip file: " ++ p)
                  ("Error cleaning up temp clip file " ++ p)
                  { chan := st.chan ++ [QItem.line ("Uploading " ++ p ++ " to Vercel Blob..."),
                      QItem.line ("Error uploading " ++ p ++ " to Vercel Blob: " ++ m)],
                    disk := st.disk, events := st.events ++ [Ev.publishAttempt p] } =
                  { chan := st.chan ++ [QItem.line ("Uploading " ++ p ++ " to Vercel Blob..."),
                      QItem.line ("Error uploading " ++ p ++ " to Vercel Blob: " ++ m),
                      QItem.line ("Cleaned up temporary clip file: " ++ p)],
                    disk := st.disk.filter (fun q => q != p),
                    events := st.events ++ [Ev.publishAttempt p, Ev.cleanupAttempt p] } := by
                simp [tryRemove, St.existsFile, hp, hrm, St.ev, St.rm, log_message, St.put,
                  List.append_assoc]
              obtain ⟨lines, hlines, hrec⟩ := ih urls
                { chan := st.chan ++ [QItem.line ("Uploading " ++ p ++ " to Vercel Blob..."),
                    QItem.line ("Error uploading " ++ p ++ " to Vercel Blob: " ++ m),
                    QItem.line ("Cleaned up temporary clip file: " ++ p)],
                  disk := st.disk.filter (fun q => q != p),
                  events := st.events ++ [Ev.publishAttempt p, Ev.cleanupAttempt p] }
                (fun q hq => List.mem_filter.mpr ⟨hrestdisk q hq,
                  bne_iff_ne.mpr (fun h => hpn (h ▸ hq))⟩)
                hnd'
              refine ⟨[QItem.line ("Uploading " ++ p ++ " to Vercel Blob..."),
                  QItem.line ("Error uploading " ++ p ++ " to Vercel Blob: " ++ m),
                  QItem.line ("Cleaned up temporary clip file: " ++ p)] ++ lines, ?_, ?_⟩
              · intro q hq
                rcases List.mem_append.mp hq with h | h
                · simp only [List.mem_cons, List.not_mem_nil, or_false] at h
                  rcases h with rfl | rfl | rfl <;> exact ⟨_, rfl⟩
                · exact hlines q h
              · rw [uploadLoop, hu]
                simp only []
                rw [htr, hrec]
                simp [removeAll, hrm, pubEvents, hup, Except.toOption, List.append_assoc]
          | false =>
              have htr : tryRemove env p ("Cleaned up temporary clip file: " ++ p)
                  ("Error cleaning up temp clip file " ++ p)
                  { chan := st.chan ++ [QItem.line ("Uploading " ++ p ++ " to Vercel Blob..."),
                      QItem.line ("Error uploading " ++ p ++ " to Vercel Blob: " ++ m)],
                    disk := st.disk, events := st.events ++ [Ev.publishAttempt p] } =
                  { chan := st.chan ++ [QItem.line ("Uploading " ++ p ++ " to Vercel Blob..."),
                      QItem.line ("Error uploading " ++ p ++ " to Vercel Blob: " ++ m),
                      QItem.line ("Error cleaning up temp clip file " ++ p)],
                    disk := st.disk,
                    events := st.events ++ [Ev.publishAttempt p, Ev.cleanupAttempt p] } := by
                simp [tryRemove, St.existsFile, hp, hrm, St.ev, St.rm, log_message, St.put,
                  List.append_assoc]
              obtain ⟨lines, hlines, hrec⟩ := ih urls
                { chan := st.chan ++ [QItem.line ("Uploading " ++ p ++ " to Vercel Blob..."),
                    QItem.line ("Error uploading " ++ p ++ " to Vercel Blob: " ++ m),
                    QItem.line ("Error cleaning up temp clip file " ++ p)],
                  disk := st.disk,
                  events := st.events ++ [Ev.publishAttempt p, Ev.cleanupAttempt p] }
                hrestdisk hnd'
              refine ⟨[QItem.line ("Uploading " ++ p ++ " to Vercel Blob..."),
                  QItem.line ("Error uploading " ++ p ++ " to Vercel Blob: " ++ m),
                  QItem.line ("Error cleaning up temp clip file " ++ p)] ++ lines, ?_, ?_⟩
              · intro q hq
                rcases List.mem_append.mp hq with h | h
                · simp only [List.mem_cons, List.not_mem_nil, or_false] at h
                  rcases h with rfl | rfl | rfl <;> exact ⟨_, rfl⟩
                · exact hlines q h
              · rw [uploadLoop, hu]
                simp only []
                rw [htr, hrec]
                simp [removeAll, hrm, pubEvents, hup, Except.toOption, List.append_assoc]
lemma generate_spec (env : Env) (video_path : String) (st : St) (hnf : NoFault env) :
    ∃ lines, (∀ q ∈ lines, ∃ s, q = QItem.line s) ∧
      generate_short_clips_to_temp env video_path CLIP_DURATION_SECONDS NUM_CLIPS_TO_GENERATE st =
        ({ chan := st.chan ++ lines,
           disk := st.disk ++ jobPaths env,
           events := st.events ++ (jobSegIdxs env).map Ev.renderAttempt },
         Except.ok (jobPaths env)) := by
  cases hload : env.loadOk with
  | false =>
      refine ⟨[QItem.line ("--- Processing video: " ++ video_path ++ " ---"),
          QItem.line ("Error loading full video clip from " ++ video_path),
          QItem.line "This might be due to a corrupted download or an unsupported video format."],
          ?_, ?_⟩
      · intro q hq
        simp only [List.mem_cons, List.not_mem_nil, or_false] at hq
        rcases hq with rfl | rfl | rfl <;> exact ⟨_, rfl⟩
      · simp [generate_short_clips_to_temp, hload, jobPaths, jobSegIdxs, log_message, St.put]
  | true =>
      have hjp : jobPaths env
          = segPaths env env.duration CLIP_DURATION_SECONDS NUM_CLIPS_TO_GENERATE 0 := by
        simp [jobPaths, jobSegIdxs, hload, segPaths]
      have hji : jobSegIdxs env = segIdxs env.duration CLIP_DURATION_SECONDS NUM_CLIPS_TO_GENERATE 0 := by
        simp [jobSegIdxs, hload]
      obtain ⟨lines, cnt2, hlines, hloop⟩ := clipsLoop_ok env env.duration CLIP_DURATION_SECONDS
        NUM_CLIPS_TO_GENERATE 0 [] 0
        (log_message ("Full video duration: " ++ toString env.duration ++ " seconds.")
          (log_message ("--- Processing video: " ++ video_path ++ " ---") st))
        (fun j hj => by simpa using hnf j hj)
      refine ⟨[QItem.line ("--- Processing video: " ++ video_path ++ " ---"),
          QItem.line ("Full video duration: " ++ toString env.duration ++ " seconds.")] ++ lines
          ++ [QItem.line ("--- Finished generating " ++ toString cnt2 ++ " temporary clips. ---")],
          ?_, ?_⟩
      · intro q hq
        rcases List.mem_append.mp hq with h | h
        · rcases List.mem_append.mp h with h' | h'
          · simp only [List.mem_cons, List.not_mem_nil, or_false] at h'
            rcases h' with rfl | rfl <;> exact ⟨_, rfl⟩
          · exact hlines q h'
        · simp only [List.mem_cons, List.not_mem_nil, or_false] at h
          subst h; exact ⟨_, rfl⟩
      · simp only [generate_short_clips_to_temp, if_pos hload]
        rw [hloop]
        simp only []
        simp [log_message, St.put, hjp, hji, List.append_assoc]

/-- The terminal record of a job whose source was acquired: `completed` carrying the
published URLs when at least one publish succeeded, else the no-clips `failed` record
(app.py lines 228-231). -/
def terminalRec (env : Env) : QItem :=
  if jobUrls env = [] then failedRec "No clips were generated or uploaded to Vercel Blob."
  else completedRec (jobUrls env)

/-- Disk contents after the per-clip cleanups of the upload loop. -/
def diskAfterClips (env : Env) (p : String) : List String :=
  removeAll env (jobPaths env) (p :: jobPaths env)

/-- Final disk contents of a job run whose source downloaded to `p`. -/
def finalDisk (env : Env) (p : String) : List String :=
  if env.removeOk p = true then (diskAfterClips env p).filter (fun q => q != p)
  else diskAfterClips env p

/-- Log lines the successful download path enqueues. -/
def dlOkLines (p : String) : List QItem :=
  [QItem.line "--- Downloading YouTube video ---",
   QItem.line "Saving temporarily to the system temp dir",
   QItem.line ("Download complete! Temp file at: " ++ p)]

lemma lines_append {l1 l2 : List QItem} (h1 : ∀ q ∈ l1, ∃ s, q = QItem.line s)
    (h2 : ∀ q ∈ l2, ∃ s, q = QItem.line s) : ∀ q ∈ l1 ++ l2, ∃ s, q = QItem.line s := by
  intro q hq
  rcases List.mem_append.mp hq with h | h
  exacts [h1 q h, h2 q h]

lemma lines_single (s : String) : ∀ q ∈ [QItem.line s], ∃ s2, q = QItem.line s2 := by
  intro q hq
  simp only [List.mem_cons, List.not_mem_nil, or_false] at hq
  subst hq; exact ⟨_, rfl⟩

lemma dlOkLines_lines (p : String) : ∀ q ∈ dlOkLines p, ∃ s, q = QItem.line s := by
  intro q hq
  simp only [dlOkLines, List.mem_cons, List.not_mem_nil, or_false] at hq
  rcases hq with rfl | rfl | rfl <;> exact ⟨_, rfl⟩

lemma recordsOf_of_lines {l : List QItem} (h : ∀ q ∈ l, ∃ s, q = QItem.line s) :
    recordsOf l = [] := by
  refine (recordsOf_nil_iff l).mpr ?_
  intro q hq
  obtain ⟨s, rfl⟩ := h q hq
  rfl

lemma isRecord_terminalRec (env : Env) : isRecord (terminalRec env) = true := by
  unfold terminalRec
  split <;> simp [failedRec, completedRec, isRecord]

lemma isRecord_line (s : String) : isRecord (QItem.line s) = false := rfl

lemma runJob_ok_spec (env : Env) (p : String)
    (hwf : Env.wfUpTo env NUM_CLIPS_TO_GENERATE) (hnf : NoFault env)
    (hdl : env.downloadRes = Except.ok (some p)) :
    recordsOf (runJob env).chan = [terminalRec env] ∧
    (runJob env).disk = finalDisk env p ∧
    (runJob env).events = Ev.downloadAttempt ::
      ((jobSegIdxs env).map Ev.renderAttempt ++ pubEvents (jobPaths env)
        ++ [Ev.cleanupAttempt p]) ∧
    (∃ lines, (∀ q ∈ lines, ∃ s, q = QItem.line s) ∧
      (runJob env).chan = lines ++ [terminalRec env]) := by
  have hdlp : env.dlPath = some p := by simp [Env.dlPath, hdl]
  have hpnc : p ∉ jobPaths env := by
    intro hmem
    obtain ⟨j, hj, heq⟩ := jobPaths_mem env p hmem
    exact hwf.2 j hj (by rw [hdlp, heq])
  have hdown : download_youtube_video_to_temp env { chan := [], disk := [], events := [] } =
      ({ chan := dlOkLines p, disk := [p], events := [Ev.downloadAttempt] },
       Except.ok (some p)) := by
    simp [download_youtube_video_to_temp, hdl, log_message, St.put, St.ev, St.create, dlOkLines]
  obtain ⟨lines2, hl2, hgen⟩ := generate_spec env p
    { chan := dlOkLines p, disk := [p], events := [Ev.downloadAttempt] } hnf
  by_cases hjp0 : jobPaths env = []
  · -- no clip rendered: the upload loop is skipped entirely
    have hju : jobUrls env = [] := by simp [jobUrls, hjp0]
    have hrun : runJob env =
        St.put (tryRemove env p ("Cleaned up temporary downloaded video: " ++ p)
            ("Error cleaning up temp downloaded video " ++ p)
            { chan := dlOkLines p ++ lines2,
              disk := [p],
              events := Ev.downloadAttempt :: (jobSegIdxs env).map Ev.renderAttempt })
          (terminalRec env) := by
      simp only [runJob, process_video_task, process_body]
      rw [hdown]
      simp only []
      rw [if_pos (show St.existsFile
        { chan := dlOkLines p, disk := [p], events := [Ev.downloadAttempt] } p = true
        by simp [St.existsFile])]
      rw [hgen]
      simp only []
      rw [if_pos (show (jobPaths env).isEmpty = true by simp [hjp0])]
      simp only [List.isEmpty_nil, if_true]
      simp [St.put, terminalRec, hju, hjp0]
    have hp4 : p ∈ ([p] : List String) := by simp
    have hf2 : List.filter isRecord lines2 = [] := recordsOf_of_lines hl2
    refine ⟨?_, ?_, ?_, ?_⟩
    · rw [hrun, tryRemove_spec env p _ _ _ hp4]
      cases hrm : env.removeOk p <;>
        simp [St.put, recordsOf, List.filter_append, isRecord_line, dlOkLines, hf2,
          isRecord_terminalRec]
    · rw [hrun, tryRemove_spec env p _ _ _ hp4]
      cases hrm : env.removeOk p <;>
        simp [St.put, finalDisk, diskAfterClips, hjp0, removeAll, hrm]
    · rw [hrun, tryRemove_spec env p _ _ _ hp4]
      cases hrm : env.removeOk p <;>
        simp [St.put, pubEvents, hjp0]
    · rw [hrun, tryRemove_spec env p _ _ _ hp4]
      cases hrm : env.removeOk p
      · exact ⟨(dlOkLines p ++ lines2)
            ++ [QItem.line ("Error cleaning up temp downloaded video " ++ p)],
          lines_append (lines_append (dlOkLines_lines p) hl2) (lines_single _),
          by simp [St.put, hrm, List.append_assoc]⟩
      · exact ⟨(dlOkLines p ++ lines2)
            ++ [QItem.line ("Cleaned up temporary downloaded video: " ++ p)],
          lines_append (lines_append (dlOkLines_lines p) hl2) (lines_single _),
          by simp [St.put, hrm, List.append_assoc]⟩
  · -- at least one clip rendered: the upload loop runs
    have hpe : (jobPaths env).isEmpty = false := by
      obtain ⟨a, as, hcons⟩ := List.exists_cons_of_ne_nil hjp0
      rw [hcons]; rfl
    obtain ⟨lines3, hl3, hupl⟩ := uploadLoop_spec env (jobPaths env) []
      { chan := (dlOkLines p ++ lines2)
          ++ [QItem.line "--- Uploading generated clips to Vercel Blob ---"],
        disk := p :: jobPaths env,
        events := Ev.downloadAttempt :: (jobSegIdxs env).map Ev.renderAttempt }
      (fun q hq => by simp [hq])
      (jobPaths_nodup env hwf)
    have hp4 : p ∈ removeAll env (jobPaths env) (p :: jobPaths env) :=
      removeAll_keeps env (jobPaths env) _ p (by simp) hpnc
    have hrun : runJob env =
        St.put (tryRemove env p ("Cleaned up temporary downloaded video: " ++ p)
            ("Error cleaning up temp downloaded video " ++ p)
            { chan := ((dlOkLines p ++ lines2)
                ++ [QItem.line "--- Uploading generated clips to Vercel Blob ---"]) ++ lines3,
              disk := removeAll env (jobPaths env) (p :: jobPaths env),
              events := (Ev.downloadAttempt :: (jobSegIdxs env).map Ev.renderAttempt)
                ++ pubEvents (jobPaths env) })
          (terminalRec env) := by
      simp only [runJob, process_video_task, process_body]
      rw [hdown]
      simp only []
      rw [if_pos (show St.existsFile
        { chan := dlOkLines p, disk := [p], events := [Ev.downloadAttempt] } p = true
        by simp [St.existsFile])]
      rw [hgen]
      simp only []
      rw [if_neg (show ¬ (jobPaths env).isEmpty = true by simp [hpe])]
      simp only [log_message, St.put, List.singleton_append]
      rw [hupl]
      simp only []
      rw [show List.filterMap (fun q => (env.uploadRes q).toOption) (jobPaths env)
        = jobUrls env from rfl]
      cases hje : jobUrls env with
      | nil => simp [St.put, terminalRec, hje, log_message, List.append_assoc]
      | cons u us => simp [St.put, terminalRec, hje, log_message, List.append_assoc]
    have hf2 : List.filter isRecord lines2 = [] := recordsOf_of_lines hl2
    have hf3 : List.filter isRecord lines3 = [] := recordsOf_of_lines hl3
    have hhdr : ∀ q ∈ ((dlOkLines p ++ lines2)
        ++ [QItem.line "--- Uploading generated clips to Vercel Blob ---"]) ++ lines3,
        ∃ s, q = QItem.line s :=
      lines_append (lines_append (lines_append (dlOkLines_lines p) hl2) (lines_single _)) hl3
    refine ⟨?_, ?_, ?_, ?_⟩
    · rw [hrun, tryRemove_spec env p _ _ _ hp4]
      cases hrm : env.removeOk p <;>
        simp [St.put, recordsOf, List.filter_append, isRecord_line, dlOkLines, hf2, hf3,
          isRecord_terminalRec]
    · rw [hrun, tryRemove_spec env p _ _ _ hp4]
      cases hrm : env.removeOk p <;>
        simp [St.put, finalDisk, diskAfterClips, hrm]
    · rw [hrun, tryRemove_spec env p _ _ _ hp4]
      cases hrm : env.removeOk p <;>
        simp [St.put, List.append_assoc]
    · rw [hrun, tryRemove_spec env p _ _ _ hp4]
      cases hrm : env.removeOk p
      · exact ⟨(((dlOkLines p ++ lines2)
            ++ [QItem.line "--- Uploading generated clips to Vercel Blob ---"]) ++ lines3)
            ++ [QItem.line ("Error cleaning up temp downloaded video " ++ p)],
          lines_append hhdr (lines_single _),
          by simp [St.put, hrm, List.append_assoc]⟩
      · exact ⟨(((dlOkLines p ++ lines2)
            ++ [QItem.line "--- Uploading generated clips to Vercel Blob ---"]) ++ lines3)
            ++ [QItem.line ("Cleaned up temporary downloaded video: " ++ p)],
          lines_append hhdr (lines_single _),
          by simp [St.put, hrm, List.append_assoc]⟩

lemma tryRemove_chan (env : Env) (p a b : String) (st : St) :
    ∃ m, (tryRemove env p a b st).chan = st.chan ++ [QItem.line m] := by
  unfold tryRemove
  simp only []
  split
  · exact ⟨a, by simp [log_message, St.put, St.rm, St.ev]⟩
  · exact ⟨b, by simp [log_message, St.put, St.ev]⟩

lemma upload_chan (env : Env) (p : String) (st : St) :
    ∃ ls, (∀ q ∈ ls, ∃ s, q = QItem.line s) ∧
      ((upload_to_vercel_blob env p st).1).chan = st.chan ++ ls := by
  unfold upload_to_vercel_blob
  split
  · cases hup : env.uploadRes p with
    | ok url =>
        refine ⟨[QItem.line ("Uploading " ++ p ++ " to Vercel Blob..."),
          QItem.line ("Uploaded to Vercel Blob: " ++ url)], ?_, ?_⟩
        · intro q hq
          simp only [List.mem_cons, List.not_mem_nil, or_false] at hq
          rcases hq with rfl | rfl <;> exact ⟨_, rfl⟩
        · simp [hup, log_message, St.put, St.ev]
    | error m =>
        refine ⟨[QItem.line ("Uploading " ++ p ++ " to Vercel Blob..."),
          QItem.line ("Error uploading " ++ p ++ " to Vercel Blob: " ++ m)], ?_, ?_⟩
        · intro q hq
          simp only [List.mem_cons, List.not_mem_nil, or_false] at hq
          rcases hq with rfl | rfl <;> exact ⟨_, rfl⟩
        · simp [hup, log_message, St.put, St.ev]
  · exact ⟨[QItem.line ("Error: Local file " ++ p ++ " not found for upload to Vercel Blob.")],
      by intro q hq; simp only [List.mem_cons, List.not_mem_nil, or_false] at hq; subst hq;
         exact ⟨_, rfl⟩,
      by simp [log_message, St.put]⟩

lemma clipsLoop_lines (env : Env) (dur d : ℚ) :
    ∀ fuel i acc cnt st, ∃ lines, (∀ q ∈ lines, ∃ s, q = QItem.line s) ∧
      ((clipsLoop env dur d fuel i acc cnt st).1).chan = st.chan ++ lines := by
  intro fuel
  induction fuel with
  | zero => intro i acc cnt st; exact ⟨[], by simp, by simp [clipsLoop]⟩
  | succ n ih =>
      intro i acc cnt st
      by_cases h1 : dur ≤ (i : ℚ) * d
      · refine ⟨[QItem.line ("Reached end of video. Generated " ++ toString cnt
          ++ " clips.")], ?_, ?_⟩
        · intro q hq
          simp only [List.mem_cons, List.not_mem_nil, or_false] at hq
          subst hq; exact ⟨_, rfl⟩
        · simp [clipsLoop, if_pos h1, log_message, St.put]
      · by_cases h2 : dur < (i : ℚ) * d + d
        · by_cases h3 : dur - (i : ℚ) * d < d / 2
          · refine ⟨[QItem.line ("Remaining video segment (" ++ toString (dur - (i : ℚ) * d)
              ++ "s) is too short. Stopping.")], ?_, ?_⟩
            · intro q hq
              simp only [List.mem_cons, List.not_mem_nil, or_false] at hq
              subst hq; exact ⟨_, rfl⟩
            · simp only [clipsLoop, if_neg h1, if_pos h2, if_pos h3]
              simp [log_message, St.put]
          · cases hseg : env.segExn i with
            | some m =>
                refine ⟨[QItem.line ("Generating clip " ++ toString (i + 1) ++ " from "
                  ++ toString ((i : ℚ) * d) ++ "s to " ++ toString dur ++ "s...")], ?_, ?_⟩
                · intro q hq
                  simp only [List.mem_cons, List.not_mem_nil, or_false] at hq
                  subst hq; exact ⟨_, rfl⟩
                · simp only [clipsLoop, if_neg h1, if_pos h2, if_neg h3]
                  simp [renderSegment, hseg, log_message, St.put]
            | none =>
                obtain ⟨ls, hls, hr⟩ := renderSegment_spec env i ((i : ℚ) * d) dur acc cnt st hseg
                obtain ⟨lines', hl', hrec⟩ := ih (i + 1)
                  (acc ++ (if env.renderOk i then [env.clipPath i] else []))
                  (cnt + (if env.renderOk i then 1 else 0))
                  { chan := st.chan ++ ls,
                    disk := st.disk ++ (if env.renderOk i then [env.clipPath i] else []),
                    events := st.events ++ [Ev.renderAttempt i] }
                refine ⟨ls ++ lines', ?_, ?_⟩
                · intro q hq
                  rcases List.mem_append.mp hq with h | h
                  exacts [hls q h, hl' q h]
                · simp only [clipsLoop, if_neg h1, if_pos h2, if_neg h3]
                  rw [hr]
                  simp only []
                  rw [hrec]
                  simp [List.append_assoc]
        · cases hseg : env.segExn i with
          | some m =>
              refine ⟨[QItem.line ("Generating clip " ++ toString (i + 1) ++ " from "
                ++ toString ((i : ℚ) * d) ++ "s to " ++ toString ((i : ℚ) * d + d)
                ++ "s...")], ?_, ?_⟩
              · intro q hq
                simp only [List.mem_cons, List.not_mem_nil, or_false] at hq
                subst hq; exact ⟨_, rfl⟩
              · simp only [clipsLoop, if_neg h1, if_neg h2]
                simp [renderSegment, hseg, log_message, St.put]
          | none =>
              obtain ⟨ls, hls, hr⟩ := renderSegment_spec env i ((i : ℚ) * d)
                ((i : ℚ) * d + d) acc cnt st hseg
              obtain ⟨lines', hl', hrec⟩ := ih (i + 1)
                (acc ++ (if env.renderOk i then [env.clipPath i] else []))
                (cnt + (if env.renderOk i then 1 else 0))
                { chan := st.chan ++ ls,
                  disk := st.disk ++ (if env.renderOk i then [env.clipPath i] else []),
                  events := st.events ++ [Ev.renderAttempt i] }
              refine ⟨ls ++ lines', ?_, ?_⟩
              · intro q hq
                rcases List.mem_append.mp hq with h | h
                exacts [hls q h, hl' q h]
              · simp only [clipsLoop, if_neg h1, if_neg h2]
                rw [hr]
                simp only []
                rw [hrec]
                simp [List.append_assoc]

lemma generate_lines (env : Env) (vp : String) (st : St) :
    ∃ lines, (∀ q ∈ lines, ∃ s, q = QItem.line s) ∧
      ((generate_short_clips_to_temp env vp CLIP_DURATION_SECONDS NUM_CLIPS_TO_GENERATE st).1).chan
        = st.chan ++ lines := by
  cases hload : env.loadOk with
  | false =>
      refine ⟨[QItem.line ("--- Processing video: " ++ vp ++ " ---"),
        QItem.line ("Error loading full video clip from " ++ vp),
        QItem.line "This might be due to a corrupted download or an unsupported video format."],
        ?_, ?_⟩
      · intro q hq
        simp only [List.mem_cons, List.not_mem_nil, or_false] at hq
        rcases hq with rfl | rfl | rfl <;> exact ⟨_, rfl⟩
      · simp [generate_short_clips_to_temp, hload, log_message, St.put]
  | true =>
      obtain ⟨lines, hlines, hchan⟩ := clipsLoop_lines env env.duration CLIP_DURATION_SECONDS
        NUM_CLIPS_TO_GENERATE 0 [] 0
        (log_message ("Full video duration: " ++ toString env.duration ++ " seconds.")
          (log_message ("--- Processing video: " ++ vp ++ " ---") st))
      rcases hcl : clipsLoop env env.duration CLIP_DURATION_SECONDS NUM_CLIPS_TO_GENERATE 0 [] 0
        (log_message ("Full video duration: " ++ toString env.duration ++ " seconds.")
          (log_message ("--- Processing video: " ++ vp ++ " ---") st)) with ⟨st2, res⟩
      rw [hcl] at hchan
      cases res with
      | error m =>
          refine ⟨[QItem.line ("--- Processing video: " ++ vp ++ " ---"),
            QItem.line ("Full video duration: " ++ toString env.duration ++ " seconds.")]
              ++ lines, ?_, ?_⟩
          · intro q hq
            rcases List.mem_append.mp hq with h | h
            · simp only [List.mem_cons, List.not_mem_nil, or_false] at h
              rcases h with rfl | rfl <;> exact ⟨_, rfl⟩
            · exact hlines q h
          · simp only [generate_short_clips_to_temp, if_pos hload]
            rw [hcl]
            simp only []
            simp only at hchan
            simp [hchan, log_message, St.put, List.append_assoc]
      | ok pc =>
          rcases pc with ⟨paths, cnt⟩
          refine ⟨[QItem.line ("--- Processing video: " ++ vp ++ " ---"),
            QItem.line ("Full video duration: " ++ toString env.duration ++ " seconds.")]
              ++ lines
              ++ [QItem.line ("--- Finished generating " ++ toString cnt
                    ++ " temporary clips. ---")], ?_, ?_⟩
          · intro q hq
            rcases List.mem_append.mp hq with h | h
            · rcases List.mem_append.mp h with h' | h'
              · simp only [List.mem_cons, List.not_mem_nil, or_false] at h'
                rcases h' with rfl | rfl <;> exact ⟨_, rfl⟩
              · exact hlines q h'
            · simp only [List.mem_cons, List.not_mem_nil, or_false] at h
              subst h; exact ⟨_, rfl⟩
          · simp only [generate_short_clips_to_temp, if_pos hload]
            rw [hcl]
            simp only []
            simp only at hchan
            simp [hchan, log_message, St.put, List.append_assoc]

lemma uploadLoop_lines (env : Env) :
    ∀ paths urls st, ∃ lines, (∀ q ∈ lines, ∃ s, q = QItem.line s) ∧
      ((uploadLoop env paths urls st).1).chan = st.chan ++ lines := by
  intro paths
  induction paths with
  | nil => intro urls st; exact ⟨[], by simp, by simp [uploadLoop]⟩
  | cons p rest ih =>
      intro urls st
      obtain ⟨ls, hls, hchan⟩ := upload_chan env p st
      obtain ⟨m, hm⟩ := tryRemove_chan env p ("Cleaned up temporary clip file: " ++ p)
        ("Error cleaning up temp clip file " ++ p) ((upload_to_vercel_blob env p st).1)
      obtain ⟨lines', hl', hrec⟩ := ih
        (match (upload_to_vercel_blob env p st).2 with
         | some url => urls ++ [url]
         | none => urls)
        (tryRemove env p ("Cleaned up temporary clip file: " ++ p)
          ("Error cleaning up temp clip file " ++ p) ((upload_to_vercel_blob env p st).1))
      refine ⟨(ls ++ [QItem.line m]) ++ lines', ?_, ?_⟩
      · intro q hq
        rcases List.mem_append.mp hq with h | h
        · rcases List.mem_append.mp h with h' | h'
          · exact hls q h'
          · simp only [List.mem_cons, List.not_mem_nil, or_false] at h'
            subst h'; exact ⟨_, rfl⟩
        · exact hl' q h
      · simp only [uploadLoop]
        rw [hrec, hm, hchan]
        simp [List.append_assoc]

/-- Shape of the channel content after any job run, fault paths included: some log lines,
then exactly one terminal record (completed, failed or error), then at most one trailing
log line, with no further record. -/
lemma runJob_shape (env : Env) :
    ∃ pre r post, (runJob env).chan = pre ++ r :: post ∧
      (∀ q ∈ pre, ∃ s, q = QItem.line s) ∧
      (∀ q ∈ post, ∃ s, q = QItem.line s) ∧ post.length ≤ 1 ∧
      ((∃ urls, r = completedRec urls) ∨ (∃ m, r = failedRec m) ∨ (∃ m, r = errorRec m)) := by
  rcases hdl : env.downloadRes with m | op
  · refine ⟨[QItem.line "--- Downloading YouTube video ---",
        QItem.line "Saving temporarily to the system temp dir"],
      errorRec ("An unexpected error occurred: " ++ m),
      [QItem.line ("An unexpected error occurred in processing task: " ++ m)],
      ?_, ?_, lines_single _, by simp, Or.inr (Or.inr ⟨_, rfl⟩)⟩
    · simp only [runJob, process_video_task, process_body, download_youtube_video_to_temp, hdl,
        log_message, St.put, St.ev]
      simp
    · intro q hq
      simp only [List.mem_cons, List.not_mem_nil, or_false] at hq
      rcases hq with rfl | rfl <;> exact ⟨_, rfl⟩
  · rcases op with _ | p
    · refine ⟨[QItem.line "--- Downloading YouTube video ---",
          QItem.line "Saving temporarily to the system temp dir",
          QItem.line "Error downloading video with yt-dlp"],
        failedRec "Failed to download the YouTube video. Cannot generate clips.",
        [QItem.line "Failed to download the YouTube video. Cannot generate clips."],
        ?_, ?_, lines_single _, by simp, Or.inr (Or.inl ⟨_, rfl⟩)⟩
      · simp only [runJob, process_video_task, process_body, download_youtube_video_to_temp, hdl,
          downloadFailedExit, log_message, St.put, St.ev]
        simp
      · intro q hq
        simp only [List.mem_cons, List.not_mem_nil, or_false] at hq
        rcases hq with rfl | rfl | rfl <;> exact ⟨_, rfl⟩
    · have hdown : download_youtube_video_to_temp env { chan := [], disk := [], events := [] } =
          ({ chan := dlOkLines p, disk := [p], events := [Ev.downloadAttempt] },
           Except.ok (some p)) := by
        simp [download_youtube_video_to_temp, hdl, log_message, St.put, St.ev, St.create,
          dlOkLines]
      obtain ⟨lines2, hl2, hgchan⟩ := generate_lines env p
        { chan := dlOkLines p, disk := [p], events := [Ev.downloadAttempt] }
      rcases hg : generate_short_clips_to_temp env p CLIP_DURATION_SECONDS NUM_CLIPS_TO_GENERATE
        { chan := dlOkLines p, disk := [p], events := [Ev.downloadAttempt] } with ⟨st2, res2⟩
      rw [hg] at hgchan
      simp only at hgchan
      cases res2 with
      | error m =>
          refine ⟨dlOkLines p ++ lines2, errorRec ("An unexpected error occurred: " ++ m),
            [QItem.line ("An unexpected error occurred in processing task: " ++ m)],
            ?_, lines_append (dlOkLines_lines p) hl2, lines_single _, by simp,
            Or.inr (Or.inr ⟨_, rfl⟩)⟩
          simp only [runJob, process_video_task, process_body]
          rw [hdown]
          simp only []
          rw [if_pos (show St.existsFile
            { chan := dlOkLines p, disk := [p], events := [Ev.downloadAttempt] } p = true
            by simp [St.existsFile])]
          rw [hg]
          simp only []
          simp [St.put, log_message, hgchan, List.append_assoc]
      | ok paths =>
          by_cases hpe : paths.isEmpty = true
          · obtain ⟨m4, hm4⟩ := tryRemove_chan env p
              ("Cleaned up temporary downloaded video: " ++ p)
              ("Error cleaning up temp downloaded video " ++ p) st2
            refine ⟨(dlOkLines p ++ lines2) ++ [QItem.line m4],
              failedRec "No clips were generated or uploaded to Vercel Blob.", [],
              ?_, lines_append (lines_append (dlOkLines_lines p) hl2) (lines_single m4),
              by simp, by simp, Or.inr (Or.inl ⟨_, rfl⟩)⟩
            simp only [runJob, process_video_task, process_body]
            rw [hdown]
            simp only []
            rw [if_pos (show St.existsFile
              { chan := dlOkLines p, disk := [p], events := [Ev.downloadAttempt] } p = true
              by simp [St.existsFile])]
            rw [hg]
            simp only []
            rw [if_pos hpe]
            simp only [List.isEmpty_nil, if_true, St.put]
            simp [hm4, hgchan, List.append_assoc]
          · obtain ⟨lines3, hl3, hupchan⟩ := uploadLoop_lines env paths []
              (log_message "--- Uploading generated clips to Vercel Blob ---" st2)
            rcases hu : uploadLoop env paths []
              (log_message "--- Uploading generated clips to Vercel Blob ---" st2)
              with ⟨st3, urls⟩
            rw [hu] at hupchan
            simp only at hupchan
            obtain ⟨m4, hm4⟩ := tryRemove_chan env p
              ("Cleaned up temporary downloaded video: " ++ p)
              ("Error cleaning up temp downloaded video " ++ p) st3
            have hpre : ∀ q ∈ ((dlOkLines p ++ lines2)
                ++ QItem.line "--- Uploading generated clips to Vercel Blob ---" :: lines3)
                ++ [QItem.line m4], ∃ s, q = QItem.line s := by
              refine lines_append (lines_append (lines_append (dlOkLines_lines p) hl2) ?_)
                (lines_single m4)
              intro q hq
              rcases List.mem_cons.mp hq with rfl | hq'
              · exact ⟨_, rfl⟩
              · exact hl3 q hq'
            by_cases hue : urls.isEmpty = true
            · refine ⟨((dlOkLines p ++ lines2)
                  ++ QItem.line "--- Uploading generated clips to Vercel Blob ---" :: lines3)
                  ++ [QItem.line m4],
                failedRec "No clips were generated or uploaded to Vercel Blob.", [],
                ?_, hpre, by simp, by simp, Or.inr (Or.inl ⟨_, rfl⟩)⟩
              simp only [runJob, process_video_task, process_body]
              rw [hdown]
              simp only []
              rw [if_pos (show St.existsFile
                { chan := dlOkLines p, disk := [p], events := [Ev.downloadAttempt] } p = true
                by simp [St.existsFile])]
              rw [hg]
              simp only []
              rw [if_neg (show ¬ paths.isEmpty = true by simp [hpe])]
              rw [hu]
              simp only []
              rw [if_pos hue]
              simp only [St.put]
              simp [hm4, hupchan, hgchan, log_message, St.put, List.append_assoc]
            · refine ⟨((dlOkLines p ++ lines2)
                  ++ QItem.line "--- Uploading generated clips to Vercel Blob ---" :: lines3)
                  ++ [QItem.line m4],
                completedRec urls, [],
                ?_, hpre, by simp, by simp, Or.inl ⟨urls, rfl⟩⟩
              simp only [runJob, process_video_task, process_body]
              rw [hdown]
              simp only []
              rw [if_pos (show St.existsFile
                { chan := dlOkLines p, disk := [p], events := [Ev.downloadAttempt] } p = true
                by simp [St.existsFile])]
              rw [hg]
              simp only []
              rw [if_neg (show ¬ paths.isEmpty = true by simp [hpe])]
              rw [hu]
              simp only []
              rw [if_neg hue]
              simp only [St.put]
              simp [hm4, hupchan, hgchan, log_message, St.put, List.append_assoc]

/-- A job whose source downloads and loads but whose encoding backend fails every
segment: every `write_videofile` call errors. -/
def envEncFail : Env :=
  { downloadRes := Except.ok (some "full_video.mp4"),
    loadOk := true,
    duration := 100,
    frameW := 1920, frameH := 1080,
    segExn := fun _ => none,
    renderOk := fun _ => false,
    clipPath := fun i => "short_clip_" ++ toString (i + 1) ++ ".mp4",
    uploadRes := fun p => Except.ok ("https://blob.example/" ++ p),
    removeOk := fun _ => true }

/-- A job whose source acquisition fails (yt-dlp returns no file). -/
def envDlFail : Env :=
  { downloadRes := Except.ok none,
    loadOk := true,
    duration := 100,
    frameW := 1920, frameH := 1080,
    segExn := fun _ => none,
    renderOk := fun _ => true,
    clipPath := fun i => "short_clip_" ++ toString (i + 1) ++ ".mp4",
    uploadRes := fun p => Except.ok ("https://blob.example/" ++ p),
    removeOk := fun _ => true }

/-- A fully successful job with exactly one planned segment (27s source, 27s clips). -/
def envOneClip : Env :=
  { downloadRes := Except.ok (some "full_video.mp4"),
    loadOk := true,
    duration := 27,
    frameW := 1920, frameH := 1080,
    segExn := fun _ => none,
    renderOk := fun _ => true,
    clipPath := fun i => "short_clip_" ++ toString (i + 1) ++ ".mp4",
    uploadRes := fun p => Except.ok ("https://blob.example/" ++ p),
    removeOk := fun _ => true }

/-- A job with one rendered clip whose publish step fails. -/
def envPubFail : Env :=
  { downloadRes := Except.ok (some "full_video.mp4"),
    loadOk := true,
    duration := 27,
    frameW := 1920, frameH := 1080,
    segExn := fun _ => none,
    renderOk := fun _ => true,
    clipPath := fun i => "short_clip_" ++ toString (i + 1) ++ ".mp4",
    uploadRes := fun _ => Except.error "blob store rejected the upload",
    removeOk := fun _ => true }

/-- A fully successful job with exactly two planned segments (54s source, 27s clips). -/
def envTwoClips : Env :=
  { downloadRes := Except.ok (some "full_video.mp4"),
    loadOk := true,
    duration := 54,
    frameW := 1920, frameH := 1080,
    segExn := fun _ => none,
    renderOk := fun _ => true,
    clipPath := fun i => "short_clip_" ++ toString (i + 1) ++ ".mp4",
    uploadRes := fun p => Except.ok ("https://blob.example/" ++ p),
    removeOk := fun _ => true }

/-- A job with five rendered clips where publishing fails for clips 2 and 4. -/
def envTwoPubFail : Env :=
  { downloadRes := Except.ok (some "full_video.mp4"),
    loadOk := true,
    duration := 135,
    frameW := 1920, frameH := 1080,
    segExn := fun _ => none,
    renderOk := fun _ => true,
    clipPath := fun i => "short_clip_" ++ toString (i + 1) ++ ".mp4",
    uploadRes := fun p =>
      if p = "short_clip_2.mp4" || p = "short_clip_4.mp4" then
        Except.error "blob store rejected the upload"
      else Except.ok ("https://blob.example/" ++ p),
    removeOk := fun _ => true }

lemma plan_27 : planAux (27 : ℚ) 27 5 0 = [(0, 27)] := by
  norm_num [planAux]

lemma plan_54 : planAux (54 : ℚ) 27 5 0 = [(0, 27), (27, 54)] := by
  norm_num [planAux]

lemma plan_135 : planAux (135 : ℚ) 27 5 0
    = [(0, 27), (27, 54), (54, 81), (81, 108), (108, 135)] := by
  norm_num [planAux]

lemma jobUrls_envOneClip :
    jobUrls envOneClip = ["https://blob.example/short_clip_1.mp4"] := by
  have h1 : jobSegIdxs envOneClip = [0] := by
    simp [jobSegIdxs, envOneClip, segIdxs, CLIP_DURATION_SECONDS, NUM_CLIPS_TO_GENERATE,
      plan_27, List.range']
  simp only [jobUrls, jobPaths, h1]
  decide

lemma jobPaths_envPubFail : jobPaths envPubFail = ["short_clip_1.mp4"] := by
  have h1 : jobSegIdxs envPubFail = [0] := by
    simp [jobSegIdxs, envPubFail, segIdxs, CLIP_DURATION_SECONDS, NUM_CLIPS_TO_GENERATE,
      plan_27, List.range']
  simp only [jobPaths, h1]
  decide

lemma jobSegIdxs_envTwoClips : jobSegIdxs envTwoClips = [0, 1] := by
  simp [jobSegIdxs, envTwoClips, segIdxs, CLIP_DURATION_SECONDS, NUM_CLIPS_TO_GENERATE,
    plan_54, List.range']

lemma jobPaths_envTwoClips :
    jobPaths envTwoClips = ["short_clip_1.mp4", "short_clip_2.mp4"] := by
  simp only [jobPaths, jobSegIdxs_envTwoClips]
  decide

lemma jobSegIdxs_envTwoPubFail : jobSegIdxs envTwoPubFail = [0, 1, 2, 3, 4] := by
  simp [jobSegIdxs, envTwoPubFail, segIdxs, CLIP_DURATION_SECONDS, NUM_CLIPS_TO_GENERATE,
    plan_135, List.range']

lemma jobPaths_envTwoPubFail :
    jobPaths envTwoPubFail = ["short_clip_1.mp4", "short_clip_2.mp4", "short_clip_3.mp4",
      "short_clip_4.mp4", "short_clip_5.mp4"] := by
  simp only [jobPaths, jobSegIdxs_envTwoPubFail]
  decide

lemma jobUrls_envTwoPubFail :
    jobUrls envTwoPubFail = ["https://blob.example/short_clip_1.mp4",
      "https://blob.example/short_clip_3.mp4", "https://blob.example/short_clip_5.mp4"] := by
  unfold jobUrls
  rw [jobPaths_envTwoPubFail]
  decide

/-- A drain of a channel made of log lines followed by a single status record returns that
record and leaves the channel empty. -/
lemma get_logs_of_lines_record {lines : List QItem}
    (hl : ∀ q ∈ lines, ∃ s, q = QItem.line s)
    (fields : List (String × DVal))
    (hf : fields.any (fun kv => kv.1 == "status") = true) :
    get_logs (lines ++ [QItem.dict fields]) = (PollResp.record fields, []) := by
  have h := drainLoop_finds_record lines [] fields []
    (fun q hq => by obtain ⟨s, rfl⟩ := hl q hq; rfl) hf
  simpa [get_logs] using h

/-- A job whose second segment's moviepy subclip/crop/resize calls (app.py lines 131-142,
outside any `try`) raise an uncaught exception. -/
def envSegFault : Env :=
  { downloadRes := Except.ok (some "full_video.mp4"),
    loadOk := true,
    duration := 54,
    frameW := 1920, frameH := 1080,
    segExn := fun i => if i = 1 then some "moviepy crop raised" else none,
    renderOk := fun _ => true,
    clipPath := fun i => "short_clip_" ++ toString (i + 1) ++ ".mp4",
    uploadRes := fun p => Except.ok ("https://blob.example/" ++ p),
    removeOk := fun _ => true }

lemma jobSegIdxs_envSegFault : jobSegIdxs envSegFault = [0, 1] := by
  simp [jobSegIdxs, envSegFault, segIdxs, CLIP_DURATION_SECONDS, NUM_CLIPS_TO_GENERATE,
    plan_54, List.range']

lemma isRecord_errorRec (m : String) : isRecord (errorRec m) = true := by
  simp [errorRec, isRecord]

/-- An uncaught moviepy exception at the first faulting planned segment escapes the clip
loop with that segment's message. -/
lemma clipsLoop_fault (env : Env) (dur d : ℚ) :
    ∀ fuel i acc cnt st j m,
      j ∈ List.range' i (planAux dur d fuel i).length →
      env.segExn j = some m →
      (∀ l, i ≤ l → l < j → env.segExn l = none) →
      (clipsLoop env dur d fuel i acc cnt st).2 = Except.error m := by
  intro fuel
  induction fuel with
  | zero =>
      intro i acc cnt st j m hj _ _
      simp [planAux] at hj
  | succ n ih =>
      intro i acc cnt st j m hj hm hlt
      by_cases h1 : dur ≤ (i : ℚ) * d
      · have hplan : planAux dur d (n + 1) i = [] := by
          simp only [planAux, if_pos h1]
        rw [hplan] at hj
        simp at hj
      · by_cases h2 : dur < (i : ℚ) * d + d
        · by_cases h3 : dur - (i : ℚ) * d < d / 2
          · have hplan : planAux dur d (n + 1) i = [] := by
              simp only [planAux, if_neg h1, if_pos h2, if_pos h3]
            rw [hplan] at hj
            simp at hj
          · have hplan : planAux dur d (n + 1) i
                = ((i : ℚ) * d, dur) :: planAux dur d n (i + 1) := by
              simp only [planAux, if_neg h1, if_pos h2, if_neg h3]
            rw [hplan, List.length_cons, List.range'_succ] at hj
            rcases List.mem_cons.mp hj with rfl | hj'
            · simp only [clipsLoop, if_neg h1, if_pos h2, if_neg h3]
              simp [renderSegment, hm, log_message, St.put]
            · have hij : i < j := by
                have := (List.mem_range'_1.mp hj').1
                omega
              obtain ⟨ls, hls, hr⟩ := renderSegment_spec env i ((i : ℚ) * d) dur acc cnt st
                (hlt i le_rfl hij)
              simp only [clipsLoop, if_neg h1, if_pos h2, if_neg h3]
              rw [hr]
              simp only []
              exact ih (i + 1) _ _ _ j m hj' hm (fun l hl1 hl2 => hlt l (by omega) hl2)
        · have hplan : planAux dur d (n + 1) i
              = ((i : ℚ) * d, (i : ℚ) * d + d) :: planAux dur d n (i + 1) := by
            simp only [planAux, if_neg h1, if_neg h2]
          rw [hplan, List.length_cons, List.range'_succ] at hj
          rcases List.mem_cons.mp hj with rfl | hj'
          · simp only [clipsLoop, if_neg h1, if_neg h2]
            simp [renderSegment, hm, log_message, St.put]
          · have hij : i < j := by
              have := (List.mem_range'_1.mp hj').1
              omega
            obtain ⟨ls, hls, hr⟩ := renderSegment_spec env i ((i : ℚ) * d)
              ((i : ℚ) * d + d) acc cnt st (hlt i le_rfl hij)
            simp only [clipsLoop, if_neg h1, if_neg h2]
            rw [hr]
            simp only []
            exact ih (i + 1) _ _ _ j m hj' hm (fun l hl1 hl2 => hlt l (by omega) hl2)

/-- The uncaught segment exception escapes `generate_short_clips_to_temp` to its caller. -/
lemma generate_fault (env : Env) (vp : String) (st : St) (j : ℕ) (m : String)
    (hload : env.loadOk = true)
    (hj : j ∈ jobSegIdxs env) (hm : env.segExn j = some m)
    (hfirst : ∀ l < j, env.segExn l = none) :
    (generate_short_clips_to_temp env vp CLIP_DURATION_SECONDS NUM_CLIPS_TO_GENERATE st).2
      = Except.error m := by
  have hj' : j ∈ List.range' 0 ((planAux env.duration CLIP_DURATION_SECONDS
      NUM_CLIPS_TO_GENERATE 0).length) := by
    simpa [jobSegIdxs, hload, segIdxs] using hj
  have hfault := clipsLoop_fault env env.duration CLIP_DURATION_SECONDS
    NUM_CLIPS_TO_GENERATE 0 [] 0
    (log_message ("Full video duration: " ++ toString env.duration ++ " seconds.")
      (log_message ("--- Processing video: " ++ vp ++ " ---") st)) j m hj' hm
    (fun l _ hl => hfirst l hl)
  simp only [generate_short_clips_to_temp, if_pos hload]
  rw [hfault]

/-- A job run whose clip generation raises ends with exactly the error record carrying the
captured message (the `except` handler of app.py lines 233-235). -/
lemma runJob_error_records (env : Env) (p : String) (m : String)
    (hdl : env.downloadRes = Except.ok (some p))
    (hgen : (generate_short_clips_to_temp env p CLIP_DURATION_SECONDS NUM_CLIPS_TO_GENERATE
      { chan := dlOkLines p, disk := [p], events := [Ev.downloadAttempt] }).2
        = Except.error m) :
    recordsOf (runJob env).chan = [errorRec ("An unexpected error occurred: " ++ m)] := by
  have hdown : download_youtube_video_to_temp env { chan := [], disk := [], events := [] } =
      ({ chan := dlOkLines p, disk := [p], events := [Ev.downloadAttempt] },
       Except.ok (some p)) := by
    simp [download_youtube_video_to_temp, hdl, log_message, St.put, St.ev, St.create,
      dlOkLines]
  obtain ⟨lines2, hl2, hgchan⟩ := generate_lines env p
    { chan := dlOkLines p, disk := [p], events := [Ev.downloadAttempt] }
  rcases hg : generate_short_clips_to_temp env p CLIP_DURATION_SECONDS NUM_CLIPS_TO_GENERATE
    { chan := dlOkLines p, disk := [p], events := [Ev.downloadAttempt] } with ⟨st2, res2⟩
  rw [hg] at hgchan hgen
  simp only at hgchan hgen
  subst hgen
  have hf2 : List.filter isRecord lines2 = [] := recordsOf_of_lines hl2
  simp only [runJob, process_video_task, process_body]
  rw [hdown]
  simp only []
  rw [if_pos (show St.existsFile
    { chan := dlOkLines p, disk := [p], events := [Ev.downloadAttempt] } p = true
    by simp [St.existsFile])]
  rw [hg]
  simp only []
  simp [St.put, log_message, recordsOf, List.filter_append, hgchan, isRecord_line,
    isRecord_errorRec, dlOkLines, hf2]

/-- C3.  Terminal outcome taxonomy: when the source cannot be acquired the single terminal
record is the failed download record; when the source is acquired and no segment is both
rendered and published the terminal record is the no-clips failed record; when at least one
segment is rendered and published the terminal record is completed and carries exactly the
successfully published URLs; and any uncaught fault — whether raised during source
acquisition or by the moviepy calls at the first faulting planned segment — yields the
error record carrying the captured message.  (Abstract state names map to the code's
status strings: Failed to "failed", Completed to "completed", Errored to "error".) -/
theorem terminal_outcome_taxonomy (env : Env) :
    (env.downloadRes = Except.ok none →
        recordsOf (runJob env).chan
          = [failedRec "Failed to download the YouTube video. Cannot generate clips."]) ∧
    (∀ p, Env.wfUpTo env NUM_CLIPS_TO_GENERATE → NoFault env →
        env.downloadRes = Except.ok (some p) → jobUrls env = [] →
        recordsOf (runJob env).chan
          = [failedRec "No clips were generated or uploaded to Vercel Blob."]) ∧
    (∀ p, Env.wfUpTo env NUM_CLIPS_TO_GENERATE → NoFault env →
        env.downloadRes = Except.ok (some p) → jobUrls env ≠ [] →
        recordsOf (runJob env).chan = [completedRec (jobUrls env)]) ∧
    (∀ m, env.downloadRes = Except.error m →
        recordsOf (runJob env).chan
          = [errorRec ("An unexpected error occurred: " ++ m)]) ∧
    (∀ p j m, env.downloadRes = Except.ok (some p) →
        j ∈ jobSegIdxs env → env.segExn j = some m →
        (∀ l < j, env.segExn l = none) →
        recordsOf (runJob env).chan
          = [errorRec ("An unexpected error occurred: " ++ m)]) := by
  refine ⟨?_, ?_, ?_, ?_, ?_⟩
  · intro hdl
    simp only [runJob, process_video_task, process_body, download_youtube_video_to_temp, hdl,
      downloadFailedExit, log_message, St.put, St.ev]
    simp [recordsOf, isRecord, failedRec]
  · intro p hwf hnf hdl hju
    rw [(runJob_ok_spec env p hwf hnf hdl).1]
    simp [terminalRec, hju]
  · intro p hwf hnf hdl hju
    rw [(runJob_ok_spec env p hwf hnf hdl).1]
    simp [terminalRec, hju]
  · intro m hdl
    simp only [runJob, process_video_task, process_body, download_youtube_video_to_temp, hdl,
      log_message, St.put, St.ev]
    simp [recordsOf, isRecord, errorRec]
  · intro p j m hdl hj hm hfirst
    have hload : env.loadOk = true := by
      by_contra hload
      rw [jobSegIdxs, if_neg hload] at hj
      simp at hj
    exact runJob_error_records env p m hdl
      (generate_fault env p _ j m hload hj hm hfirst)

/-- Witness for `terminal_outcome_taxonomy`: a valid source whose encoding backend fails
every segment ends with the failed record and no result URLs; and a job whose second
segment's moviepy calls raise ends with the error record carrying the captured message. -/
theorem terminal_outcome_taxonomy_witness :
    (Env.wfUpTo envEncFail NUM_CLIPS_TO_GENERATE ∧ NoFault envEncFail ∧
     envEncFail.downloadRes = Except.ok (some "full_video.mp4") ∧
     jobUrls envEncFail = [] ∧
     recordsOf (runJob envEncFail).chan
       = [failedRec "No clips were generated or uploaded to Vercel Blob."]) ∧
    (envSegFault.downloadRes = Except.ok (some "full_video.mp4") ∧
     (1 : ℕ) ∈ jobSegIdxs envSegFault ∧
     envSegFault.segExn 1 = some "moviepy crop raised" ∧
     (∀ l < 1, envSegFault.segExn l = none) ∧
     recordsOf (runJob envSegFault).chan
       = [errorRec ("An unexpected error occurred: " ++ "moviepy crop raised")]) :=
  ⟨⟨by decide, by decide, rfl, by simp [jobUrls, jobPaths, envEncFail],
    (terminal_outcome_taxonomy envEncFail).2.1 "full_video.mp4" (by decide) (by decide)
      rfl (by simp [jobUrls, jobPaths, envEncFail])⟩,
   ⟨rfl, by simp [jobSegIdxs_envSegFault], by decide, by decide,
    (terminal_outcome_taxonomy envSegFault).2.2.2.2 "full_video.mp4" 1 "moviepy crop raised"
      rfl (by simp [jobSegIdxs_envSegFault]) (by decide) (by decide)⟩⟩

/-- Counterexample to C5 as stated: in the download-failure path the orchestrator writes a
further log line to the channel after enqueueing the terminal record (app.py lines
194-195), so the terminal record is not the last write. -/
theorem terminal_write_counterexample :
    (runJob envDlFail).chan =
      [QItem.line "--- Downloading YouTube video ---",
       QItem.line "Saving temporarily to the system temp dir",
       QItem.line "Error downloading video with yt-dlp",
       failedRec "Failed to download the YouTube video. Cannot generate clips.",
       QItem.line "Failed to download the YouTube video. Cannot generate clips."] ∧
    isRecord (failedRec "Failed to download the YouTube video. Cannot generate clips.")
      = true ∧
    (runJob envDlFail).chan.getLast? =
      some (QItem.line "Failed to download the YouTube video. Cannot generate clips.") ∧
    isRecord (QItem.line "Failed to download the YouTube video. Cannot generate clips.")
      = false :=
  ⟨by decide, by decide, by decide, by decide⟩

/-- C5 (amended).  Progress channel terminal invariant: every job run enqueues exactly one
terminal record; the writes before it are plain log lines, and after it the orchestrator
writes at most one further plain log line (in the download-failure and fault paths) and
never another record. -/
theorem terminal_record_unique (env : Env) :
    ∃ pre r post, (runJob env).chan = pre ++ r :: post ∧
      recordsOf pre = [] ∧ isRecord r = true ∧ recordsOf post = [] ∧ post.length ≤ 1 := by
  obtain ⟨pre, r, post, hchan, hpre, hpost, hlen, hr⟩ := runJob_shape env
  refine ⟨pre, r, post, hchan, recordsOf_of_lines hpre, ?_, recordsOf_of_lines hpost, hlen⟩
  rcases hr with ⟨urls, rfl⟩ | ⟨m, rfl⟩ | ⟨m, rfl⟩ <;>
    simp [completedRec, failedRec, errorRec, isRecord]

/-- Counterexample to C8 as stated: the completed record produced by a successful run
carries the published URLs under the key "clips", not "urls", and the poll returns it
as such. -/
theorem poll_key_counterexample :
    recordsOf (runJob envOneClip).chan
      = [QItem.dict [("status", DVal.s "completed"),
          ("clips", DVal.arr ["https://blob.example/short_clip_1.mp4"])]] ∧
    get_logs (runJob envOneClip).chan
      = (PollResp.record [("status", DVal.s "completed"),
          ("clips", DVal.arr ["https://blob.example/short_clip_1.mp4"])], []) ∧
    (([("status", DVal.s "completed"),
        ("clips", DVal.arr ["https://blob.example/short_clip_1.mp4"])].map Prod.fst).contains
        "urls") = false := by
  have hspec := runJob_ok_spec envOneClip "full_video.mp4" (by decide) (by decide) rfl
  have hterm : terminalRec envOneClip
      = completedRec ["https://blob.example/short_clip_1.mp4"] := by
    simp [terminalRec, jobUrls_envOneClip]
  obtain ⟨lines, hl, hchan⟩ := hspec.2.2.2
  refine ⟨?_, ?_, by decide⟩
  · rw [hspec.1, hterm]
    rfl
  · rw [hchan, hterm]
    exact get_logs_of_lines_record hl _ (by decide)

/-- C8 (amended).  Poll response shape: a poll returns exactly one of two shapes — the
logging payload carrying the pending items, or a status record; and every record a job run
ever enqueues is one of the three literal forms `status "completed"` with the URL list
under "clips", `status "failed"` with a message, or `status "error"` with a message. -/
theorem poll_response_shape (env : Env) (chan : List QItem) :
    ((∃ l, get_logs chan = (PollResp.logging l, [])) ∨
      (∃ fields rest, get_logs chan = (PollResp.record fields, rest))) ∧
    (∀ fields, QItem.dict fields ∈ (runJob env).chan →
        (∃ urls, QItem.dict fields = completedRec urls) ∨
        (∃ m, QItem.dict fields = failedRec m) ∨
        (∃ m, QItem.dict fields = errorRec m)) := by
  constructor
  · rcases get_logs_char chan with ⟨-, h⟩ | ⟨pre, fields, post, -, -, -, h⟩
    · exact Or.inl ⟨chan, h⟩
    · exact Or.inr ⟨fields, post, h⟩
  · intro fields hmem
    obtain ⟨pre, r, post, hchan, hpre, hpost, -, hr⟩ := runJob_shape env
    rw [hchan] at hmem
    rcases List.mem_append.mp hmem with h | h
    · obtain ⟨s, hs⟩ := hpre _ h
      exact absurd hs (by simp)
    · rcases List.mem_cons.mp h with heq | h'
      · rcases hr with ⟨urls, hr⟩ | ⟨m, hr⟩ | ⟨m, hr⟩
        · exact Or.inl ⟨urls, heq.trans hr⟩
        · exact Or.inr (Or.inl ⟨m, heq.trans hr⟩)
        · exact Or.inr (Or.inr ⟨m, heq.trans hr⟩)
      · obtain ⟨s, hs⟩ := hpost _ h'
        exact absurd hs (by simp)

/-- Witness for `poll_response_shape` at a successful one-clip run: the record found in the
channel has the completed form, and a poll of an empty channel takes the logging shape. -/
theorem poll_response_shape_witness :
    ((∃ l, get_logs [] = (PollResp.logging l, [])) ∨
      (∃ fields rest, get_logs [] = (PollResp.record fields, rest))) ∧
    ((∃ urls, QItem.dict [("status", DVal.s "completed"),
        ("clips", DVal.arr ["https://blob.example/short_clip_1.mp4"])] = completedRec urls) ∨
     (∃ m, QItem.dict [("status", DVal.s "completed"),
        ("clips", DVal.arr ["https://blob.example/short_clip_1.mp4"])] = failedRec m) ∨
     (∃ m, QItem.dict [("status", DVal.s "completed"),
        ("clips", DVal.arr ["https://blob.example/short_clip_1.mp4"])] = errorRec m)) := by
  have hspec := runJob_ok_spec envOneClip "full_video.mp4" (by decide) (by decide) rfl
  obtain ⟨lines, hl, hchan⟩ := hspec.2.2.2
  have hmem : QItem.dict [("status", DVal.s "completed"),
      ("clips", DVal.arr ["https://blob.example/short_clip_1.mp4"])]
      ∈ (runJob envOneClip).chan := by
    rw [hchan]
    simp [terminalRec, jobUrls_envOneClip, completedRec]
  exact ⟨(poll_response_shape envOneClip []).1,
    (poll_response_shape envOneClip []).2 _ hmem⟩

/-- Counterexample to C4 as stated: a rendered artifact whose publish step fails is NOT
left in place — the upload loop's cleanup (app.py lines 214-219) runs unconditionally
after the upload attempt, so the artifact is deleted and the final disk is empty. -/
theorem publish_failure_counterexample :
    Ev.publishAttempt "short_clip_1.mp4" ∈ (runJob envPubFail).events ∧
    envPubFail.uploadRes "short_clip_1.mp4" = Except.error "blob store rejected the upload" ∧
    (runJob envPubFail).disk = [] := by
  have hspec := runJob_ok_spec envPubFail "full_video.mp4" (by decide) (by decide) rfl
  refine ⟨?_, rfl, ?_⟩
  · rw [hspec.2.2.1]
    simp [jobPaths_envPubFail, pubEvents]
  · rw [hspec.2.1]
    simp only [finalDisk, diskAfterClips, jobPaths_envPubFail]
    decide

/-- C4 (amended).  Publish-failure behavior: for every rendered artifact whose publish
step fails, the job still continues — every rendered artifact receives a publish attempt
and a cleanup attempt — and only the failed artifact's URL is omitted from the terminal
record's list; but the local artifact is NOT left in place: cleanup deletes every rendered
artifact whose deletion succeeds, published or not. -/
theorem publish_failure_behavior (env : Env) (p : String)
    (hwf : Env.wfUpTo env NUM_CLIPS_TO_GENERATE) (hnf : NoFault env)
    (hdl : env.downloadRes = Except.ok (some p)) :
    (∀ q ∈ jobPaths env,
        Ev.publishAttempt q ∈ (runJob env).events ∧
        Ev.cleanupAttempt q ∈ (runJob env).events) ∧
    (∀ q ∈ jobPaths env, env.removeOk q = true → q ∉ (runJob env).disk) ∧
    recordsOf (runJob env).chan = [terminalRec env] := by
  obtain ⟨hrec, hdisk, hev, -⟩ := runJob_ok_spec env p hwf hnf hdl
  refine ⟨?_, ?_, hrec⟩
  · intro q hq
    obtain ⟨h1, h2⟩ := pubEvents_mem q (jobPaths env) hq
    rw [hev]
    constructor <;> simp [h1, h2]
  · intro q hq hrm
    rw [hdisk]
    unfold finalDisk
    intro hmem
    have hmem' : q ∈ diskAfterClips env p := by
      by_cases hc : env.removeOk p = true
      · rw [if_pos hc] at hmem
        exact List.mem_of_mem_filter hmem
      · rwa [if_neg hc] at hmem
    exact removeAll_removed env (jobPaths env) _ q hq hrm hmem'

/-- Witness for `publish_failure_behavior`: five rendered clips with publishing failing
for clips 2 and 4 end Completed with exactly the three successful URLs, and every local
artifact — the two failed ones included — is deleted. -/
theorem publish_failure_behavior_witness :
    Env.wfUpTo envTwoPubFail NUM_CLIPS_TO_GENERATE ∧ NoFault envTwoPubFail ∧
    jobUrls envTwoPubFail = ["https://blob.example/short_clip_1.mp4",
      "https://blob.example/short_clip_3.mp4", "https://blob.example/short_clip_5.mp4"] ∧
    terminalRec envTwoPubFail = completedRec ["https://blob.example/short_clip_1.mp4",
      "https://blob.example/short_clip_3.mp4", "https://blob.example/short_clip_5.mp4"] ∧
    ((∀ q ∈ jobPaths envTwoPubFail,
        Ev.publishAttempt q ∈ (runJob envTwoPubFail).events ∧
        Ev.cleanupAttempt q ∈ (runJob envTwoPubFail).events) ∧
     (∀ q ∈ jobPaths envTwoPubFail, envTwoPubFail.removeOk q = true →
        q ∉ (runJob envTwoPubFail).disk) ∧
     recordsOf (runJob envTwoPubFail).chan = [terminalRec envTwoPubFail]) :=
  ⟨by decide, by decide, jobUrls_envTwoPubFail,
   by rw [terminalRec, jobUrls_envTwoPubFail]; simp,
   publish_failure_behavior envTwoPubFail "full_video.mp4" (by decide) (by decide) rfl⟩

/-- Counterexample to C6 as stated: with two successfully rendered clips the second
segment's render is attempted before the first artifact's publish — publishing is batched
after all renders (the render loop of app.py line 199 completes before the upload loop of
line 210 starts). -/
theorem batching_counterexample :
    (runJob envTwoClips).events =
      [Ev.downloadAttempt, Ev.renderAttempt 0, Ev.renderAttempt 1,
       Ev.publishAttempt "short_clip_1.mp4", Ev.cleanupAttempt "short_clip_1.mp4",
       Ev.publishAttempt "short_clip_2.mp4", Ev.cleanupAttempt "short_clip_2.mp4",
       Ev.cleanupAttempt "full_video.mp4"] ∧
    (runJob envTwoClips).events.indexOf (Ev.renderAttempt 1)
      < (runJob envTwoClips).events.indexOf (Ev.publishAttempt "short_clip_1.mp4") := by
  have hspec := runJob_ok_spec envTwoClips "full_video.mp4" (by decide) (by decide) rfl
  have hev : (runJob envTwoClips).events =
      [Ev.downloadAttempt, Ev.renderAttempt 0, Ev.renderAttempt 1,
       Ev.publishAttempt "short_clip_1.mp4", Ev.cleanupAttempt "short_clip_1.mp4",
       Ev.publishAttempt "short_clip_2.mp4", Ev.cleanupAttempt "short_clip_2.mp4",
       Ev.cleanupAttempt "full_video.mp4"] := by
    rw [hspec.2.2.1, jobSegIdxs_envTwoClips, jobPaths_envTwoClips]
    rfl
  refine ⟨hev, ?_⟩
  rw [hev]
  decide

/-- C6 (amended).  Render/publish ordering: within every job execution is strictly
sequential — all segment renders are attempted first, in planned index order (indices
0, 1, 2, ...), and only then is each rendered artifact published, in the same order, with
its cleanup attempted immediately after its publish; finally the downloaded source is
cleaned up.  Publishing is batched after all renders, not interleaved per segment. -/
theorem render_then_publish_order (env : Env) (p : String)
    (hwf : Env.wfUpTo env NUM_CLIPS_TO_GENERATE) (hnf : NoFault env)
    (hdl : env.downloadRes = Except.ok (some p)) :
    (runJob env).events = Ev.downloadAttempt ::
      ((jobSegIdxs env).map Ev.renderAttempt ++ pubEvents (jobPaths env)
        ++ [Ev.cleanupAttempt p]) ∧
    jobSegIdxs env = List.range (jobSegIdxs env).length := by
  refine ⟨(runJob_ok_spec env p hwf hnf hdl).2.2.1, ?_⟩
  unfold jobSegIdxs
  split
  · unfold segIdxs
    rw [List.length_range', ← List.range_eq_range']
  · simp

/-- Witness for `render_then_publish_order` at a two-clip job. -/
theorem render_then_publish_order_witness :
    Env.wfUpTo envTwoClips NUM_CLIPS_TO_GENERATE ∧ NoFault envTwoClips ∧
    ((runJob envTwoClips).events = Ev.downloadAttempt ::
      ((jobSegIdxs envTwoClips).map Ev.renderAttempt ++ pubEvents (jobPaths envTwoClips)
        ++ [Ev.cleanupAttempt "full_video.mp4"]) ∧
     jobSegIdxs envTwoClips = List.range (jobSegIdxs envTwoClips).length) :=
  ⟨by decide, by decide,
   render_then_publish_order envTwoClips "full_video.mp4" (by decide) (by decide) rfl⟩

/-- Counterexample to C7 as stated: after a download-failure run the channel holds the
terminal record followed by one log line; the first poll returns the record leaving the
line pending, and a second poll with no intervening writes returns that line — not an
empty/idle result — so something did remain pending after the drain. -/
theorem poll_idempotence_counterexample :
    get_logs (runJob envDlFail).chan =
      (PollResp.record [("status", DVal.s "failed"),
        ("message", DVal.s "Failed to download the YouTube video. Cannot generate clips.")],
       [QItem.line "Failed to download the YouTube video. Cannot generate clips."]) ∧
    get_logs [QItem.line "Failed to download the YouTube video. Cannot generate clips."]
      = (PollResp.logging
          [QItem.line "Failed to download the YouTube video. Cannot generate clips."], []) ∧
    PollResp.logging [QItem.line "Failed to download the YouTube video. Cannot generate clips."]
      ≠ PollResp.logging [] :=
  ⟨by decide, by decide, by decide⟩

/-- C7 (amended).  Poll idempotence: no queue entry is ever delivered by two polls; when a
poll returns the logging shape it has drained the channel empty, so a second poll with no
intervening writes returns the idle logging result with no lines; a poll that returns a
terminal record, however, consumes only the record and the lines queued before it (which
are dropped), leaving the entries queued after the record pending for a later poll. -/
theorem poll_idempotence (chan : List QItem) :
    (recordsOf chan = [] →
        get_logs chan = (PollResp.logging chan, []) ∧
        get_logs ((get_logs chan).2) = (PollResp.logging [], [])) ∧
    (∀ fields rest, get_logs chan = (PollResp.record fields, rest) →
        ∃ pre, chan = pre ++ QItem.dict fields :: rest ∧ recordsOf pre = []) := by
  constructor
  · intro h
    have h' := (recordsOf_nil_iff chan).mp h
    have h1 : get_logs chan = (PollResp.logging chan, []) := by
      simpa [get_logs] using drainLoop_no_record chan [] h'
    refine ⟨h1, ?_⟩
    rw [h1]
    simp [get_logs, drainLoop]
  · intro fields rest hpoll
    rcases get_logs_char chan with ⟨hnl, hlog⟩ | ⟨pre, f2, post, hchan, hpre, hf, hrec⟩
    · rw [hlog] at hpoll
      simp at hpoll
    · rw [hrec] at hpoll
      simp only [Prod.mk.injEq, PollResp.record.injEq] at hpoll
      obtain ⟨rfl, rfl⟩ := hpoll
      exact ⟨pre, hchan, (recordsOf_nil_iff pre).mpr hpre⟩

/-- Witness for `poll_idempotence` at a record-free one-line channel. -/
theorem poll_idempotence_witness :
    recordsOf [QItem.line "a log line"] = [] ∧
    (get_logs [QItem.line "a log line"]
        = (PollResp.logging [QItem.line "a log line"], []) ∧
     get_logs ((get_logs [QItem.line "a log line"]).2) = (PollResp.logging [], [])) :=
  ⟨by decide, (poll_idempotence [QItem.line "a log line"]).1 (by decide)⟩

/-- C9.  Submission validation: a submitted link is rejected synchronously — with the
channel untouched and no background thread started — exactly when it is empty or not
scheme-qualified (no `http://`/`https://` scheme, app.py line 246); otherwise the channel
is reset to the three start notes, the worker thread is started, and the constant
`processing` response is returned immediately, independent of the job's outcome. -/
theorem submission_validation (link : String) (chan : List QItem) :
    ((link = "" ∨ schemeQualified link = false) →
        generate_clips link chan
          = (SubmitResp.errorResp "Invalid YouTube link provided.", chan, false)) ∧
    (link ≠ "" → schemeQualified link = true →
        generate_clips link chan
          = (SubmitResp.processing "Video generation started. Check logs for updates.",
             startNotes, true)) := by
  constructor
  · intro h
    have hc : (link == "" || !schemeQualified link) = true := by
      rcases h with rfl | h
      · simp
      · simp [h]
    unfold generate_clips
    rw [if_pos hc]
  · intro h1 h2
    have hc : ¬ ((link == "" || !schemeQualified link) = true) := by
      simp [h1, h2]
    unfold generate_clips
    rw [if_neg hc]

/-- Witness for `submission_validation`: the empty link is rejected with no state change
and no thread; a scheme-qualified link is accepted, the notes are enqueued, the thread is
started, and the constant processing response returns at once. -/
theorem submission_validation_witness :
    ("" = "" ∨ schemeQualified "" = false) ∧
    generate_clips "" [QItem.line "old"]
      = (SubmitResp.errorResp "Invalid YouTube link provided.",
         [QItem.line "old"], false) ∧
    ("https://youtu.be/abc" ≠ "") ∧ schemeQualified "https://youtu.be/abc" = true ∧
    generate_clips "https://youtu.be/abc" [QItem.line "old"]
      = (SubmitResp.processing "Video generation started. Check logs for updates.",
         startNotes, true) :=
  ⟨Or.inl rfl,
   (submission_validation "" [QItem.line "old"]).1 (Or.inl rfl),
   by decide, by decide,
   (submission_validation "https://youtu.be/abc" [QItem.line "old"]).2
     (by decide) (by decide)⟩

/-- C10.  Drain semantics around a terminal record: when the channel holds plain log
lines queued before a status record, a single poll returns only the record — the earlier
lines are neither included in the response nor retained in the channel — while everything
queued after the record remains and is delivered by a subsequent poll. -/
theorem drain_drops_lines_before_terminal (pre post : List QItem)
    (fields : List (String × DVal)) (hpre : recordsOf pre = [])
    (hf : fields.any (fun kv => kv.1 == "status") = true) :
    get_logs (pre ++ QItem.dict fields :: post) = (PollResp.record fields, post) ∧
    (recordsOf post = [] → get_logs post = (PollResp.logging post, [])) := by
  constructor
  · have h := drainLoop_finds_record pre [] fields post ((recordsOf_nil_iff pre).mp hpre) hf
    simpa [get_logs] using h
  · intro h
    simpa [get_logs] using drainLoop_no_record post [] ((recordsOf_nil_iff post).mp h)

/-- Witness for `drain_drops_lines_before_terminal` with one early line, a failed record
and one late line. -/
theorem drain_drops_lines_before_terminal_witness :
    recordsOf [QItem.line "early line"] = [] ∧
    ([("status", DVal.s "failed"), ("message", DVal.s "m")].any
        (fun kv => kv.1 == "status")) = true ∧
    (get_logs ([QItem.line "early line"]
        ++ QItem.dict [("status", DVal.s "failed"), ("message", DVal.s "m")]
          :: [QItem.line "late line"])
      = (PollResp.record [("status", DVal.s "failed"), ("message", DVal.s "m")],
         [QItem.line "late line"]) ∧
     (recordsOf [QItem.line "late line"] = [] →
        get_logs [QItem.line "late line"]
          = (PollResp.logging [QItem.line "late line"], []))) :=
  ⟨by decide, by decide,
   drain_drops_lines_before_terminal [QItem.line "early line"] [QItem.line "late line"]
     [("status", DVal.s "failed"), ("message", DVal.s "m")] (by decide) (by decide)⟩

end YtShorts
